import Mathlib

/-!
# NetconEthernetTap: connection registry, RPC handlers, lwIP callbacks, frame bridge and
data pump

A shallow embedding of `netcon/NetconEthernetTap.cpp`.

* Pointers are natural numbers.  `PhySocket *` and `struct tcp_pcb *` use `0` for `NULL`;
  a `TcpConnection *` is an `Option Nat` (`none` is `NULL`).
* `tcp_connections` is the vector of registered connection objects; every object carries
  its own address (`addr`), and `p->field = v` is an update of the entry whose address is `p`.
* Everything the code hands to the lwIP stack, to the kernel or to `Phy` is appended to
  `Tap.trace`; everything those return is an explicit argument of the embedded function.
* Dereferencing `NULL` or a deleted object is `Outcome.undefined`, `exit(0)` is
  `Outcome.exited`.  Calls to `fprintf` are left out.
-/

namespace NetconEthernetTap

/-! ## Constants -/

/-! The lwIP `err_t` codes and the `errno` values the file uses come from `lwip/err.h`
(lwIP 1.4.x) and from the Linux `errno.h`; the functions below use them by name only, and the
theorems depend on nothing but their being distinct and on the sign of the `err_t` codes. -/

/-- `ERR_OK` of `lwip/err.h`. -/
def ERR_OK : Int := 0
def ERR_MEM : Int := -1
def ERR_BUF : Int := -2
def ERR_TIMEOUT : Int := -3
def ERR_RTE : Int := -4
def ERR_INPROGRESS : Int := -5
def ERR_VAL : Int := -6
def ERR_WOULDBLOCK : Int := -7
def ERR_USE : Int := -8
def ERR_ISCONN : Int := -9
def ERR_ABRT : Int := -10
def ERR_RST : Int := -11
def ERR_CLSD : Int := -12
def ERR_CONN : Int := -13
def ERR_ARG : Int := -14
def ERR_IF : Int := -15

/-- `EBADF` of `errno.h`. -/
def EBADF : Int := 9
def EAGAIN : Int := 11
def ENOMEM : Int := 12
def EINVAL : Int := 22
def EADDRINUSE : Int := 98
def ENETUNREACH : Int := 101
def EISCONN : Int := 106
def ENOBUFS : Int := 105
def ETIMEDOUT : Int := 110
def ECONNREFUSED : Int := 111
def EINPROGRESS : Int := 115
def EWOULDBLOCK : Int := 11

/-- `#define ZT_LWIP_TCP_TIMER_INTERVAL 10`. -/
def ZT_LWIP_TCP_TIMER_INTERVAL : Nat := 10

/-- `#define STATUS_TMR_INTERVAL 500`. -/
def STATUS_TMR_INTERVAL : Nat := 500

/-- `#define APPLICATION_POLL_FREQ 20`. -/
def APPLICATION_POLL_FREQ : Nat := 20

/-! ## Data model -/

/-- The lwIP callbacks defined in the file. -/
inductive Callback where
  | nc_accept
  | nc_recved
  | nc_err
  | nc_poll
  | nc_sent
  | nc_connected
  deriving DecidableEq, Repr

/-- The states of a `tcp_pcb` that the file tests for (`conn->pcb->state`). -/
inductive tcp_state where
  | CLOSED
  | LISTEN
  | other
  deriving DecidableEq, Repr

/-- A `TcpConnection` object together with its address. -/
structure TcpConnection where
  addr : Nat
  perceived_fd : Int
  their_fd : Int
  pending : Bool
  listening : Bool
  rpcSock : Nat
  dataSock : Nat
  pcb : Nat
  buf : List Nat
  idx : Nat
  deriving DecidableEq, Repr

/-- One call that leaves the tap: to the lwIP stack, to the kernel or to `Phy`.  Where the
callee returns something the code looks at, the returned value is recorded with the call. -/
inductive Event where
  | tcp_arg (pcb : Nat) (arg : Option Nat)
  | tcp_sent (pcb : Nat) (cb : Option Callback)
  | tcp_recv (pcb : Nat) (cb : Option Callback)
  | tcp_err (pcb : Nat) (cb : Option Callback)
  | tcp_poll (pcb : Nat) (cb : Option Callback) (interval : Nat)
  | tcp_accept (pcb : Nat) (cb : Option Callback)
  | tcp_close (pcb : Nat)
  | tcp_new (ret : Nat)
  | tcp_bind (pcb ipaddr port : Nat) (err : Int)
  | tcp_listen (pcb : Nat) (backlog : Int) (ret : Nat)
  | tcp_connect (pcb ipaddr port : Nat) (cb : Callback) (err : Int)
  | tcp_write (pcb : Nat) (data : List Nat) (err : Int)
  | tcp_output (pcb : Nat)
  | tcp_accepted (pcb : Nat)
  | close_fd (sock : Nat)
  | close_their_fd (fd : Int)
  | phy_close (sock : Nat)
  | write_retval (sock : Nat) (retval errno : Int) (n : Int)
  | sock_fd_write (sock : Nat) (fd : Int) (n : Int)
  | write_signal (sock : Nat) (n : Int)
  | send_probe (sock : Nat) (n : Int)
  | set_nonblocking (sock : Nat)
  | set_notify_readable (sock : Nat) (enable : Bool)
  | read (sock : Nat) (count : Nat) (data : List Nat)
  | stream_send (sock : Nat) (data : List Nat) (n : Int)
  | tcp_recved (pcb : Nat) (len : Int)
  | pbuf_free
  | netif_input (chain : List (List Nat)) (err : Int)
  | tcp_tmr
  | etharp_tmr
  | phy_poll (timeout : Nat)
  deriving DecidableEq, Repr

/-- The part of the `NetconEthernetTap` object the embedded functions touch. -/
structure Tap where
  tcp_connections : List TcpConnection
  rpc_sockets : List Nat
  ips : List Nat
  trace : List Event
  deriving DecidableEq, Repr

/-- How an embedded function ends. -/
inductive Outcome (α : Type) where
  | ok (a : α)
  | exited
  | undefined
  | out_of_fuel
  deriving DecidableEq, Repr

/-- Record a call in the trace. -/
def Tap.emit (st : Tap) (evs : List Event) : Tap :=
  { st with trace := st.trace ++ evs }

/-- Resolve a `TcpConnection *` to the registered object at that address. -/
def Tap.deref (st : Tap) (p : Nat) : Option TcpConnection :=
  st.tcp_connections.find? (fun c => c.addr == p)

/-- The update `p->... = ...` of the object at address `p`. -/
def Tap.modify (st : Tap) (p : Nat) (f : TcpConnection → TcpConnection) : Tap :=
  { st with tcp_connections := st.tcp_connections.map (fun c => if c.addr == p then f c else c) }

/-- The RETVAL records written so far: (session socket, retval, errno). -/
def replies (tr : List Event) : List (Nat × Int × Int) :=
  tr.filterMap (fun e => match e with
    | .write_retval s r e _ => some (s, r, e)
    | _ => none)

/-- The `tcp_bind` calls made so far: (pcb, address, port). -/
def bind_calls (tr : List Event) : List (Nat × Nat × Nat) :=
  tr.filterMap (fun e => match e with
    | .tcp_bind pcb a port _ => some (pcb, a, port)
    | _ => none)

/-- The PCBs `tcp_close` was called on so far. -/
def close_calls (tr : List Event) : List Nat :=
  tr.filterMap (fun e => match e with
    | .tcp_close pcb => some pcb
    | _ => none)

/-! ## Registry -/

/-- `NetconEthernetTap::getConnectionByPCB`. -/
def getConnectionByPCB (st : Tap) (pcb : Nat) : Option TcpConnection :=
  st.tcp_connections.find? (fun c => c.pcb == pcb)

/-- `NetconEthernetTap::getConnectionByTheirFD`. -/
def getConnectionByTheirFD (st : Tap) (sock : Nat) (fd : Int) : Option TcpConnection :=
  st.tcp_connections.find? (fun c => c.perceived_fd == fd && c.rpcSock == sock)

/-- The calls `closeConnection` makes for the object `c`: the five callback slots of the PCB
are cleared, the PCB is closed, and the data socket, if there is one, is closed. -/
def close_events (c : TcpConnection) : List Event :=
  [.tcp_arg c.pcb none, .tcp_sent c.pcb none, .tcp_recv c.pcb none, .tcp_err c.pcb none,
    .tcp_poll c.pcb none 0, .tcp_close c.pcb] ++
  (if c.dataSock ≠ 0 then [.close_fd c.dataSock, .phy_close c.dataSock] else [])

/-- `NetconEthernetTap::closeConnection`: detach the callbacks, close the PCB, close the
data socket if there is one, erase the first vector entry equal to `conn`, delete it. -/
def closeConnection (st : Tap) (conn : Nat) : Outcome Tap :=
  match st.deref conn with
  | none => .undefined
  | some c =>
    let st1 := st.emit (close_events c)
    .ok { st1 with tcp_connections := st1.tcp_connections.eraseP (fun x => x.addr == conn) }

/-- `NetconEthernetTap::phyOnUnixClose`: the body is empty. -/
def phyOnUnixClose (st : Tap) (_sock : Nat) : Tap :=
  st

/-- `NetconEthernetTap::closeClient`: erase the first entry of `rpc_sockets` equal to `sock`,
close its descriptor and close it in `Phy`, which calls `phyOnUnixClose` back. -/
def closeClient (st : Tap) (sock : Nat) : Tap :=
  let st1 := { st with rpc_sockets := st.rpc_sockets.erase sock }
  let st2 := st1.emit [.close_fd sock, .phy_close sock]
  phyOnUnixClose st2 sock

/-- Sequencing: the rest of a function body runs only when the call before it returned. -/
def Outcome.bind {α β : Type} (o : Outcome α) (f : α → Outcome β) : Outcome β :=
  match o with
  | .ok a => f a
  | .exited => .exited
  | .undefined => .undefined
  | .out_of_fuel => .out_of_fuel

/-- `NetconEthernetTap::send_return_value(int fd, ...)`: write one RETVAL record on the
descriptor of `sock`; `n` is what `write` returns.  The bytes of the record are given by
`retmsg` below. -/
def send_return_value_fd (st : Tap) (sock : Nat) (retval errno : Int) (n : Int) : Tap × Int :=
  (st.emit [.write_retval sock retval errno n], n)

/-- `NetconEthernetTap::send_return_value(TcpConnection *conn, ...)`: nothing is written for a
`NULL` connection; otherwise the record goes to `conn->rpcSock`, and the connection is closed
when the write does not return a positive count. -/
def send_return_value (st : Tap) (conn : Option Nat) (retval errno : Int) (n : Int) :
    Outcome (Tap × Int) :=
  match conn with
  | none => .ok (st, -1)
  | some p =>
    match st.deref p with
    | none => .undefined
    | some c =>
      let r := send_return_value_fd st c.rpcSock retval errno n
      if r.2 > 0 then .ok (r.1.modify p (fun x => { x with pending := false }), r.2)
      else (closeConnection r.1 p).bind (fun st2 => .ok (st2, r.2))

/-! ## RPC handlers

Every handler takes the session socket `sock` and the value `*uptr` of the socket's user
pointer, as `phyOnUnixData` passes them on. -/

/-- `NetconEthernetTap::handle_map_request`.  `conn = *uptr` is dereferenced in the loop
condition, that is as soon as the vector has an entry.  In the MAPPED branch the index `i` of
the first matching entry is used once more after `send_return_value` has returned: the
logging call evaluates `tcp_connections[i]->dataSock`, in the vector as `send_return_value`
left it. -/
def handle_map_request (st : Tap) (_sock : Nat) (uptr : Option Nat) (req_fd : Int) (n : Int) :
    Outcome Tap :=
  match st.tcp_connections, uptr with
  | [], _ => (send_return_value st uptr 0 ERR_OK n).bind (fun r => .ok r.1)
  | _ :: _, none => .undefined
  | _ :: _, some p =>
    match st.deref p with
    | none => .undefined
    | some c =>
      if st.tcp_connections.any (fun x => x.rpcSock == c.rpcSock && x.perceived_fd == req_fd)
      then
        let i := st.tcp_connections.findIdx
          (fun x => x.rpcSock == c.rpcSock && x.perceived_fd == req_fd)
        (send_return_value st uptr 1 ERR_OK n).bind (fun r =>
          if i < r.1.tcp_connections.length then .ok r.1 else .undefined)
      else (send_return_value st uptr 0 ERR_OK n).bind (fun r => .ok r.1)

/-- The duplicate search of `handle_retval`, from index `i` on.  `probe s` is what the
one-byte `send` on the descriptor of data socket `s` returns.  The vector size is read again
in every round, and `i` is incremented also after an entry was erased.  The first argument
bounds the number of rounds; `handle_retval` passes the vector size. -/
def handle_retval_loop (probe : Nat → Int) (conn : Nat) : Nat → Nat → Tap → Outcome Tap
  | 0, i, st =>
    match st.tcp_connections[i]? with
    | none => .ok st
    | some _ => .out_of_fuel
  | fuel + 1, i, st =>
    match st.tcp_connections[i]? with
    | none => .ok st
    | some x =>
      if x.addr == conn then handle_retval_loop probe conn fuel (i + 1) st
      else
        match st.deref conn with
        | none => .undefined
        | some c =>
          if x.rpcSock == c.rpcSock then
            if x.perceived_fd == c.perceived_fd then
              let st1 := st.emit [.send_probe x.dataSock (probe x.dataSock)]
              if probe x.dataSock < 0 then
                (closeConnection st1 x.addr).bind (handle_retval_loop probe conn fuel (i + 1))
              else .exited
            else handle_retval_loop probe conn fuel (i + 1) st
          else handle_retval_loop probe conn fuel (i + 1) st

/-- The test of the loop body of `handle_retval` on entry `x`, for the connection `c` at
address `conn`: another entry, of the same session, with the same `perceived_fd`. -/
def is_duplicate (c : TcpConnection) (conn : Nat) (x : TcpConnection) : Bool :=
  x.addr != conn && x.rpcSock == c.rpcSock && x.perceived_fd == c.perceived_fd

/-- `NetconEthernetTap::handle_retval` (RPC_MAP with payload `fd`). -/
def handle_retval (st : Tap) (_sock : Nat) (uptr : Option Nat) (fd : Int) (probe : Nat → Int) :
    Outcome Tap :=
  match uptr with
  | none => .undefined
  | some p =>
    match st.deref p with
    | none => .undefined
    | some c =>
      if !c.pending then .ok st
      else
        let st1 := st.modify p (fun x => { x with perceived_fd := fd, pending := false })
        handle_retval_loop probe p st1.tcp_connections.length 0 st1

/-- `NetconEthernetTap::handle_bind`.  `conn_port` is the port of the request, `pcb_state` is
`conn->pcb->state`, `err` is what `tcp_bind` returns, `n` what the reply `write` returns.
The bind address is `_ips[0]`. -/
def handle_bind (st : Tap) (sock : Nat) (_uptr : Option Nat) (sockfd : Int) (conn_port : Nat)
    (pcb_state : tcp_state) (err : Int) (n : Int) : Outcome Tap :=
  match st.ips with
  | [] => .undefined
  | conn_addr :: _ =>
    match getConnectionByTheirFD st sock sockfd with
    | some c =>
      if pcb_state = .CLOSED then
        let st1 := st.emit [.tcp_bind c.pcb conn_addr conn_port err]
        if err ≠ ERR_OK then
          ((if err = ERR_USE then
              (send_return_value st1 (some c.addr) (-1) EADDRINUSE n).bind (fun r => .ok r.1)
            else .ok st1).bind (fun st2 =>
            if err = ERR_MEM then
              (send_return_value st2 (some c.addr) (-1) ENOMEM n).bind (fun r => .ok r.1)
            else .ok st2)).bind (fun st3 =>
            if err = ERR_BUF then
              (send_return_value st3 (some c.addr) (-1) ENOMEM n).bind (fun r => .ok r.1)
            else .ok st3)
        else (send_return_value st1 (some c.addr) ERR_OK ERR_OK n).bind (fun r => .ok r.1)
      else (send_return_value st (some c.addr) (-1) EINVAL n).bind (fun r => .ok r.1)
    | none => (send_return_value st none (-1) EBADF n).bind (fun r => .ok r.1)

/-- `NetconEthernetTap::handle_listen`.  `listening_pcb` is what `tcp_listen` (or
`tcp_listen_with_backlog`) returns. -/
def handle_listen (st : Tap) (sock : Nat) (_uptr : Option Nat) (sockfd : Int) (backlog : Int)
    (pcb_state : tcp_state) (listening_pcb : Nat) (n : Int) : Outcome Tap :=
  match getConnectionByTheirFD st sock sockfd with
  | none => .ok st
  | some c =>
    if pcb_state = .LISTEN then .ok st
    else
      let st1 := st.emit [.tcp_listen c.pcb backlog listening_pcb]
      if listening_pcb ≠ 0 then
        let st2 := (st1.modify c.addr (fun x => { x with pcb := listening_pcb })).emit
          [.tcp_accept listening_pcb (some .nc_accept), .tcp_arg listening_pcb (some c.addr),
           .set_nonblocking c.dataSock]
        let st3 := st2.modify c.addr (fun x => { x with listening := true, pending := true })
        (send_return_value st3 (some c.addr) ERR_OK ERR_OK n).bind (fun r => .ok r.1)
      else .ok st1

/-- `NetconEthernetTap::handle_socket`; the second component is `*uptr` afterwards.
`newpcb` is what `tcp_new` returns, `sp` what `socketpair` returns and `errno` its error
number, `fresh` the object `new TcpConnection()` returns, `dataSock` the wrapped `fds[0]`,
`fd1` is `fds[1]`, `nfd` what `sock_fd_write` returns and `n` what the reply `write` returns. -/
def handle_socket (st : Tap) (sock : Nat) (uptr : Option Nat) (newpcb : Nat) (sp errno : Int)
    (fresh : TcpConnection) (dataSock : Nat) (fd1 : Int) (nfd n : Int) : Tap × Option Nat :=
  let st0 := st.emit [.tcp_new newpcb]
  if newpcb ≠ 0 then
    if sp < 0 ∧ errno < 0 then ((send_return_value_fd st0 sock (-1) errno n).1, uptr)
    else
      let new_conn := { fresh with
        dataSock := dataSock, rpcSock := sock, pcb := newpcb, their_fd := fd1, pending := true }
      let st1 := { st0 with tcp_connections := st0.tcp_connections ++ [new_conn] }
      (st1.emit [.sock_fd_write sock fd1 nfd, .close_their_fd fd1], some fresh.addr)
  else
    ((send_return_value_fd (st0.emit [.sock_fd_write sock (-1) nfd]) sock (-1) ENOMEM n).1, uptr)

/-- Set `conn->pending = true` on the object at `p`. -/
def set_pending (st : Tap) (p : Nat) : Outcome Tap :=
  match st.deref p with
  | none => .undefined
  | some _ => .ok (st.modify p (fun x => { x with pending := true }))

/-- `NetconEthernetTap::handle_connect`.  The connection is `*uptr`; `err` is what
`tcp_connect` returns, `n` what the reply `write` returns. -/
def handle_connect (st : Tap) (_sock : Nat) (uptr : Option Nat) (_sockfd : Int)
    (conn_addr conn_port : Nat) (err : Int) (n : Int) : Outcome Tap :=
  match uptr with
  | some p =>
    match st.deref p with
    | none => .undefined
    | some c =>
      let st1 := st.emit [.tcp_sent c.pcb (some .nc_sent), .tcp_recv c.pcb (some .nc_recved),
        .tcp_err c.pcb (some .nc_err), .tcp_poll c.pcb (some .nc_poll) APPLICATION_POLL_FREQ,
        .tcp_arg c.pcb (some p), .tcp_connect c.pcb conn_addr conn_port .nc_connected err]
      if err < 0 then
        if err = ERR_ISCONN then
          (send_return_value st1 uptr (-1) EISCONN n).bind (fun r => .ok r.1)
        else if err = ERR_USE then
          (send_return_value st1 uptr (-1) EADDRINUSE n).bind (fun r => .ok r.1)
        else if err = ERR_VAL then
          (send_return_value st1 uptr (-1) EINVAL n).bind (fun r => .ok r.1)
        else if err = ERR_RTE then
          (send_return_value st1 uptr (-1) ENETUNREACH n).bind (fun r => .ok r.1)
        else if err = ERR_BUF then
          (send_return_value st1 uptr (-1) EAGAIN n).bind (fun r => .ok r.1)
        else if err = ERR_MEM then
          (send_return_value st1 uptr (-1) EAGAIN n).bind (fun r => .ok r.1)
        else
          (send_return_value st1 uptr (-1) EAGAIN n).bind (fun r => set_pending r.1 p)
      else set_pending st1 p
  | none => (send_return_value st none (-1) EBADF n).bind (fun r => .ok r.1)

/-! ## lwIP callbacks -/

/-- `NetconEthernetTap::nc_accept`; the second component is the returned `err_t`.
`conn` is `l->conn` of the callback argument, dereferenced before it is tested.  `nsig` is
what the `write` of the signal byte returns; the other arguments are as in `handle_socket`. -/
def nc_accept (st : Tap) (conn : Option Nat) (newpcb : Nat) (sp errno : Int)
    (fresh : TcpConnection) (dataSock : Nat) (fd1 : Int) (nsig nfd n : Int) :
    Outcome (Tap × Int) :=
  match conn with
  | none => .undefined
  | some p =>
    match st.deref p with
    | none => .undefined
    | some c =>
      if sp < 0 ∧ errno < 0 then
        (send_return_value st conn (-1) errno n).bind (fun r => .ok (r.1, ERR_MEM))
      else
        let new_tcp_conn := { fresh with
          dataSock := dataSock, rpcSock := c.rpcSock, pcb := newpcb, their_fd := fd1 }
        let st1 := ({ st with tcp_connections := st.tcp_connections ++ [new_tcp_conn] }).emit
          [.write_signal c.dataSock nsig]
        if nsig > 0 then
          let st2 :=
            if nfd > 0 then
              (st1.emit [.sock_fd_write c.rpcSock fd1 nfd, .close_their_fd fd1]).modify
                fresh.addr (fun x => { x with pending := true })
            else st1.emit [.sock_fd_write c.rpcSock fd1 nfd]
          .ok (st2.emit [.tcp_arg newpcb (some fresh.addr), .tcp_recv newpcb (some .nc_recved),
            .tcp_err newpcb (some .nc_err), .tcp_sent newpcb (some .nc_sent),
            .tcp_poll newpcb (some .nc_poll) 0, .tcp_accepted c.pcb], ERR_OK)
        else .ok (st1, -1)

/-- The `switch (err)` of `NetconEthernetTap::nc_err` for the connection at `p`: the reply
that goes with the error code; no reply for a code without a `case`. -/
def nc_err_switch (st : Tap) (p : Nat) (err : Int) (n : Int) : Outcome Tap :=
  if err = ERR_MEM then (send_return_value st (some p) (-1) ENOMEM n).bind (fun r => .ok r.1)
  else if err = ERR_BUF then
    (send_return_value st (some p) (-1) ENOBUFS n).bind (fun r => .ok r.1)
  else if err = ERR_TIMEOUT then
    (send_return_value st (some p) (-1) ETIMEDOUT n).bind (fun r => .ok r.1)
  else if err = ERR_RTE then
    (send_return_value st (some p) (-1) ENETUNREACH n).bind (fun r => .ok r.1)
  else if err = ERR_INPROGRESS then
    (send_return_value st (some p) (-1) EINPROGRESS n).bind (fun r => .ok r.1)
  else if err = ERR_VAL then
    (send_return_value st (some p) (-1) EINVAL n).bind (fun r => .ok r.1)
  else if err = ERR_WOULDBLOCK then
    (send_return_value st (some p) (-1) EWOULDBLOCK n).bind (fun r => .ok r.1)
  else if err = ERR_USE then
    (send_return_value st (some p) (-1) EADDRINUSE n).bind (fun r => .ok r.1)
  else if err = ERR_ISCONN then
    (send_return_value st (some p) (-1) EISCONN n).bind (fun r => .ok r.1)
  else if err = ERR_ABRT then
    (send_return_value st (some p) (-1) ECONNREFUSED n).bind (fun r => .ok r.1)
  else if err = ERR_RST then (send_return_value st (some p) (-1) (-1) n).bind (fun r => .ok r.1)
  else if err = ERR_CLSD then (send_return_value st (some p) (-1) (-1) n).bind (fun r => .ok r.1)
  else if err = ERR_CONN then (send_return_value st (some p) (-1) (-1) n).bind (fun r => .ok r.1)
  else if err = ERR_ARG then (send_return_value st (some p) (-1) (-1) n).bind (fun r => .ok r.1)
  else if err = ERR_IF then (send_return_value st (some p) (-1) (-1) n).bind (fun r => .ok r.1)
  else .ok st

/-- `NetconEthernetTap::nc_err`.  `conn` is `l->conn` of the callback argument, `n` what the
reply `write` returns.  After the `switch` the connection is closed. -/
def nc_err (st : Tap) (conn : Option Nat) (err : Int) (n : Int) : Outcome Tap :=
  match conn with
  | none => .ok st
  | some p => (nc_err_switch st p err n).bind (fun st1 => closeConnection st1 p)

/-- The `while` loop of `NetconEthernetTap::nc_recved` over the chain.  Every buffer comes
with what `streamSend` returns for it; `p->len` is the length of the payload.  The loop stops
at the first buffer without bytes. -/
def nc_recved_loop (dataSock tpcb : Nat) : List (List Nat × Int) → List Event
  | [] => []
  | (payload, n) :: rest =>
    if payload.length ≤ 0 then []
    else
      [Event.stream_send dataSock payload n] ++
        (if n > 0 then [Event.tcp_recved tpcb n] else []) ++
        nc_recved_loop dataSock tpcb rest

/-- `NetconEthernetTap::nc_recved`; the second component is the returned `err_t`.  `conn` is
`l->conn`, `p` the chain (`none` is `NULL`).  `l->conn->dataSock` is read when the first
`streamSend` is made. -/
def nc_recved (st : Tap) (conn : Option Nat) (tpcb : Nat) (p : Option (List (List Nat × Int)))
    (err : Int) : Outcome (Tap × Int) :=
  match conn with
  | none => .ok (st, ERR_OK)
  | some c0 =>
    match p with
    | none => (closeConnection st c0).bind (fun st1 => .ok (st1, err))
    | some [] => .ok (st.emit [.pbuf_free], ERR_OK)
    | some ((payload, n) :: rest) =>
      if payload.length ≤ 0 then .ok (st.emit [.pbuf_free], ERR_OK)
      else
        match st.deref c0 with
        | none => .undefined
        | some c =>
          .ok (st.emit (nc_recved_loop c.dataSock tpcb ((payload, n) :: rest) ++ [.pbuf_free]),
            ERR_OK)

/-- The bytes that reached `local_end`: for every `streamSend` that returned a positive count
`n`, the first `n` bytes of the buffer handed to it. -/
def bytes_sent (tr : List Event) : List Nat :=
  (tr.map (fun e => match e with
    | .stream_send _ d n => if n > 0 then d.take n.toNat else []
    | _ => [])).flatten

/-- The sum of the byte counts reported to the stack through `tcp_recved`. -/
def recved_total (tr : List Event) : Int :=
  (tr.map (fun e => match e with
    | .tcp_recved _ n => n
    | _ => 0)).sum

/-- The error table of the specification (section 4.G, "Error-code translation"): stack
error and reported errno; the last five rows are the "generic -1 errno". -/
def spec_nc_err_table : List (Int × Int) :=
  [(ERR_MEM, ENOMEM), (ERR_BUF, ENOBUFS), (ERR_TIMEOUT, ETIMEDOUT), (ERR_RTE, ENETUNREACH),
   (ERR_INPROGRESS, EINPROGRESS), (ERR_VAL, EINVAL), (ERR_WOULDBLOCK, EWOULDBLOCK),
   (ERR_USE, EADDRINUSE), (ERR_ISCONN, EISCONN), (ERR_ABRT, ECONNREFUSED),
   (ERR_RST, -1), (ERR_CLSD, -1), (ERR_CONN, -1), (ERR_ARG, -1), (ERR_IF, -1)]

/-! ## RETVAL record -/

/-- The object representation of an `int` (32 bits, two's complement) in host byte order. -/
def int_bytes (big_endian : Bool) (v : Int) : List Nat :=
  let u := (v % 4294967296).toNat
  let le := [u % 256, u / 256 % 256, u / 65536 % 256, u / 16777216 % 256]
  if big_endian then le.reverse else le

/-- Four bytes in host byte order read back as an `int`. -/
def int_of_bytes (big_endian : Bool) (bs : List Nat) : Int :=
  let le := if big_endian then bs.reverse else bs
  let u := le.getD 0 0 + 256 * le.getD 1 0 + 65536 * le.getD 2 0 + 16777216 * le.getD 3 0
  if u < 2147483648 then (u : Int) else (u : Int) - 4294967296

/-- `memcpy(dst + off, src, src.length)` into a buffer that is long enough. -/
def memcpy_at (dst : List Nat) (off : Nat) (src : List Nat) : List Nat :=
  dst.take off ++ src ++ dst.drop (off + src.length)

/-- The buffer `retmsg` that `send_return_value(int fd, ...)` builds and writes (the write
that `Event.write_retval` records): `sz = sizeof(char) + sizeof(retval) + sizeof(errno)`
zeroed bytes, the tag at index 0, `retval` at index 1, `_errno` at index `1 + sizeof(retval)`.
The tag `RPC_RETVAL` is defined in `Intercept.h`, which is not in the sources, and is a
parameter. -/
def retmsg (big_endian : Bool) (RPC_RETVAL : Nat) (retval errno : Int) : List Nat :=
  let sz := 1 + 4 + 4
  let m0 := List.replicate sz 0
  let m1 := m0.set 0 RPC_RETVAL
  let m2 := memcpy_at m1 1 (int_bytes big_endian retval)
  memcpy_at m2 (1 + 4) (int_bytes big_endian errno)

/-! ## Frame bridge -/

/-- `sizeof(struct eth_hdr)`: two 6-byte addresses and the 16-bit type (lwIP
`netif/etharp.h`, no padding). -/
def SIZEOF_ETH_HDR : Nat := 14

/-- The bytes of the `struct eth_hdr` that `put` fills in: `dest` from `to`, `src` from
`from`, `type = hton((uint16_t)etherType)`, in the member order of lwIP's declaration. -/
def eth_hdr_bytes (from_mac to_mac : List Nat) (etherType : Nat) : List Nat :=
  to_mac.take 6 ++ from_mac.take 6 ++ [etherType % 65536 / 256, etherType % 256]

/-- The loop of `put` over the buffers after the first: each takes the next `q->len` bytes
of the data. -/
def put_fill_rest : List Nat → List Nat → List (List Nat)
  | [], _ => []
  | qlen :: rest, dataptr => dataptr.take qlen :: put_fill_rest rest (dataptr.drop qlen)

/-- `NetconEthernetTap::put`: the calls made.  `enabled` is `_enabled`; `alloc` is what
`pbuf_alloc(PBUF_RAW, len + sizeof(struct eth_hdr), PBUF_POOL)` returns, `none` for `NULL`,
otherwise the length of the first buffer and the lengths of the buffers chained to it;
`input_err` is what `interface.input` returns.  The chain handed to `interface.input` is
given by the payloads of its buffers. -/
def put (enabled : Bool) (from_mac to_mac : List Nat) (etherType : Nat) (data : List Nat)
    (_len : Nat) (alloc : Option (Nat × List Nat)) (input_err : Int) : List Event :=
  if !enabled then []
  else
    match alloc with
    | none => []
    | some (qlen, rest) =>
      if qlen < SIZEOF_ETH_HDR then []
      else
        let first := eth_hdr_bytes from_mac to_mac etherType ++ data.take (qlen - SIZEOF_ETH_HDR)
        [.netif_input (first :: put_fill_rest rest (data.drop (qlen - SIZEOF_ETH_HDR))) input_err]

/-! ## Client-to-stack pump -/

/-- What the environment answers during one `handle_write` call: `snd_buf` is
`conn->pcb->snd_buf`, `rd` the bytes `read` stores (`r` is their number; the empty list stands
for a `read` that returns 0 or -1), `err` what `tcp_write` returns. -/
structure WriteInput where
  snd_buf : Nat
  rd : List Nat
  err : Int
  deriving DecidableEq, Repr

/-- The cells of `conn->buf` after `read` has stored `data` at the address `&conn->buf`, the
start of the array: the first cells are overwritten, the others keep their values.  The list
holds the cells written so far. -/
def read_store (buf : List Nat) (data : List Nat) : List Nat :=
  data ++ buf.drop data.length

/-- `memmove(&conn->buf, conn->buf + r, sz)`. -/
def memmove_front (buf : List Nat) (r sz : Nat) : List Nat :=
  (buf.drop r).take sz ++ buf.drop sz

/-- The body of `NetconEthernetTap::handle_write` for a non-`NULL` connection: the connection
afterwards and the calls made, in order.  The target of the `read` is
`(&conn->buf)+conn->idx`: `&conn->buf` points to the whole array, so the sum is `idx` arrays
further, which is the start of `buf` for `idx = 0` and lies outside `buf` for every other
`idx`; bytes stored there end the run as undefined.  The size of the array is declared
outside the sources: a `read` of `snd_buf` bytes at the start of `buf` is taken to fit. -/
def handle_write_conn (TCP_SND_BUF : Nat) (c : TcpConnection) (inp : WriteInput) :
    Outcome (TcpConnection × List Event) :=
  if c.idx < TCP_SND_BUF then
    if c.pcb = 0 then .ok (c, [])
    else if inp.snd_buf = 0 then .ok (c, [.set_notify_readable c.dataSock false])
    else
      let out := if !c.listening then [Event.tcp_output c.pcb] else []
      if c.dataSock ≠ 0 then
        let r := inp.rd.length
        let ev_read := [Event.read c.dataSock inp.snd_buf inp.rd]
        if r > 0 then
          if c.idx ≠ 0 then .undefined
          else
            let c1 := { c with buf := read_store c.buf inp.rd, idx := c.idx + r }
            let ev_write :=
              [Event.tcp_write c1.pcb (c1.buf.take r) inp.err, Event.tcp_output c1.pcb]
            if inp.err ≠ ERR_OK then .ok (c1, out ++ ev_read ++ ev_write)
            else
              let sz := c1.idx - r
              let c2 := if sz ≠ 0 then { c1 with buf := memmove_front c1.buf r sz } else c1
              .ok ({ c2 with idx := c2.idx - r }, out ++ ev_read ++ ev_write)
        else .ok (c, out ++ ev_read)
      else .ok (c, out)
  else .ok (c, [])

/-- `NetconEthernetTap::handle_write(TcpConnection *conn)` on the registry. -/
def handle_write (TCP_SND_BUF : Nat) (st : Tap) (conn : Option Nat) (inp : WriteInput) :
    Outcome Tap :=
  match conn with
  | none => .ok st
  | some p =>
    match st.deref p with
    | none => .undefined
    | some c =>
      (handle_write_conn TCP_SND_BUF c inp).bind (fun r =>
        .ok ((st.modify p (fun _ => r.1)).emit r.2))

/-- A sequence of `handle_write` calls on one connection, with the calls they make. -/
def handle_write_seq (TCP_SND_BUF : Nat) : TcpConnection → List WriteInput →
    Outcome (TcpConnection × List Event)
  | c, [] => .ok (c, [])
  | c, inp :: rest =>
    match handle_write_conn TCP_SND_BUF c inp with
    | .ok r1 =>
      match handle_write_seq TCP_SND_BUF r1.1 rest with
      | .ok r2 => .ok (r2.1, r1.2 ++ r2.2)
      | .exited => .exited
      | .undefined => .undefined
      | .out_of_fuel => .out_of_fuel
    | .exited => .exited
    | .undefined => .undefined
    | .out_of_fuel => .out_of_fuel

/-- The bytes taken from `local_end` by the `read` calls of a trace, in order. -/
def bytes_read (tr : List Event) : List Nat :=
  (tr.map (fun e => match e with
    | .read _ _ d => d
    | _ => [])).flatten

/-- The byte ranges handed to `tcp_write` by a trace, concatenated in call order. -/
def bytes_handed (tr : List Event) : List Nat :=
  (tr.map (fun e => match e with
    | .tcp_write _ d _ => d
    | _ => [])).flatten

/-! ## Event loop -/

/-- The three `uint64_t` timestamps `threadMain` keeps between iterations. -/
structure Timers where
  prev_tcp_time : Nat
  prev_status_time : Nat
  prev_etharp_time : Nat
  deriving DecidableEq, Repr

/-- Subtraction of `uint64_t` values. -/
def sub_u64 (a b : Nat) : Nat :=
  (a + 18446744073709551616 - b % 18446744073709551616) % 18446744073709551616

/-- One iteration of the `while (_run)` loop of `NetconEthernetTap::threadMain`: the
timestamps afterwards and the calls made.  `now` is what `OSUtils::now()` returns;
`ARP_TMR_INTERVAL` is lwIP's constant (`netif/etharp.h`, not in the sources) and is a
parameter.  The status block is guarded by `since_status >= STATUS_TMR_INTERVAL && true ==
false` and never runs; of it only the guard and the update of `prev_status_time` are kept. -/
def threadMain_iteration (ARP_TMR_INTERVAL : Nat) (t : Timers) (now : Nat) :
    Timers × List Event :=
  let since_tcp := sub_u64 now t.prev_tcp_time
  let since_etharp := sub_u64 now t.prev_etharp_time
  let since_status := sub_u64 now t.prev_status_time
  let t0 := if since_status ≥ STATUS_TMR_INTERVAL ∧ true = false
    then { t with prev_status_time := now } else t
  let r1 : Timers × List Event × Nat :=
    if since_tcp ≥ ZT_LWIP_TCP_TIMER_INTERVAL
    then ({ t0 with prev_tcp_time := now }, [Event.tcp_tmr], ZT_LWIP_TCP_TIMER_INTERVAL)
    else (t0, [], ZT_LWIP_TCP_TIMER_INTERVAL - since_tcp)
  let r2 : Timers × List Event × Nat :=
    if since_etharp ≥ ARP_TMR_INTERVAL
    then ({ r1.1 with prev_etharp_time := now }, [Event.etharp_tmr], ARP_TMR_INTERVAL)
    else (r1.1, [], ARP_TMR_INTERVAL - since_etharp)
  (r2.1, r1.2.1 ++ r2.2.1 ++ [Event.phy_poll (min r1.2.2 r2.2.2)])

/-- The due time of the specification: `max(0, interval - (now - last))`. -/
def spec_due (interval now last : Nat) : Nat :=
  interval - (now - last)

/-! ## Concrete states -/

/-- A mapped connection of session socket 7. -/
def conn_a : TcpConnection :=
  { addr := 100, perceived_fd := 17, their_fd := 5, pending := false, listening := false,
    rpcSock := 7, dataSock := 8, pcb := 9, buf := [], idx := 0 }

/-- A tap with the single session 7 and its connection `conn_a`. -/
def tap_one : Tap :=
  { tcp_connections := [conn_a], rpc_sockets := [7], ips := [1], trace := [] }

/-- A connection of session socket 7 that still waits for its RPC_MAP. -/
def conn_b : TcpConnection :=
  { addr := 200, perceived_fd := 0, their_fd := 6, pending := true, listening := false,
    rpcSock := 7, dataSock := 11, pcb := 12, buf := [], idx := 0 }

/-- Session 7 with the mapped `conn_a` and the pending `conn_b`; `*uptr` of the session is
`conn_b`. -/
def tap_two : Tap :=
  { tcp_connections := [conn_a, conn_b], rpc_sockets := [7], ips := [1], trace := [] }

/-- A second stale connection of session 7 holding the same `perceived_fd` as `conn_a`. -/
def conn_a2 : TcpConnection :=
  { conn_a with addr := 150, dataSock := 20, pcb := 21 }

/-- Session 7 with two stale connections mapped to 17 next to each other, and `conn_b`. -/
def tap_stale_pair : Tap :=
  { tcp_connections := [conn_a, conn_a2, conn_b], rpc_sockets := [7], ips := [1], trace := [] }

/-- The tap `tap_one` after a second client has connected: session 8 has no socket yet. -/
def tap_new_session : Tap :=
  { tcp_connections := [conn_a], rpc_sockets := [7, 8], ips := [1], trace := [] }

/-- A tap with the session socket 7 accepted and nothing else. -/
def tap_empty : Tap :=
  { tcp_connections := [], rpc_sockets := [7], ips := [1], trace := [] }

/-- The object `new TcpConnection()` returns at address `a`, taken as zero-initialised. -/
def fresh_at (a : Nat) : TcpConnection :=
  { addr := a, perceived_fd := 0, their_fd := 0, pending := false, listening := false,
    rpcSock := 0, dataSock := 0, pcb := 0, buf := [], idx := 0 }

/-- Scenario 1 of the specification on session 7, every call succeeding: SOCKET (object 100,
PCB 9), MAP(17), BIND(17), LISTEN(17) (listening PCB 10), then `nc_accept` on the listener
with the new PCB 12 (child object 200), then the client's MAP(23) for the child.  The user
pointer of the session is the one `handle_socket` left. -/
def accept_scenario : Outcome Tap :=
  let r1 := handle_socket tap_empty 7 none 9 0 0 (fresh_at 100) 8 5 1 9
  (handle_retval r1.1 7 r1.2 17 (fun _ => 1)).bind (fun st2 =>
  (handle_bind st2 7 r1.2 17 7777 .CLOSED ERR_OK 9).bind (fun st3 =>
  (handle_listen st3 7 r1.2 17 5 .CLOSED 10 9).bind (fun st4 =>
  (nc_accept st4 (some 100) 12 0 0 (fresh_at 200) 11 6 1 1 9).bind (fun r5 =>
  handle_retval r5.1 7 r1.2 23 (fun _ => 1)))))

/-- The connection `conn_b` once it is mapped to descriptor 18. -/
def conn_d : TcpConnection :=
  { conn_b with perceived_fd := 18, pending := false }

/-- Session 7 with two mapped connections; `*uptr` of the session is the one created last,
`conn_d`. -/
def tap_two_mapped : Tap :=
  { tcp_connections := [conn_a, conn_d], rpc_sockets := [7], ips := [1], trace := [] }

/-- A connection whose buffer holds four bytes that the stack has not taken. -/
def conn_full : TcpConnection :=
  { conn_a with buf := [1, 2, 3, 4], idx := 4 }

/-- One pump round in which one byte is read and the stack refuses the write. -/
def refused_round : WriteInput :=
  { snd_buf := 1, rd := [1], err := ERR_MEM }

/-- A chain of two buffers, the first without bytes; every `streamSend` would be complete. -/
def chain_empty_first : List (List Nat × Int) :=
  [([], 0), ([1, 2], 2)]

/-- A connection with one byte buffered that the stack has not taken. -/
def conn_one : TcpConnection :=
  { conn_a with buf := [1], idx := 1 }

/-- One pump round in which four bytes are read and the stack refuses the write. -/
def refused_four : WriteInput :=
  { snd_buf := 4, rd := [2, 3, 4, 5], err := ERR_MEM }

/-- The timestamps `threadMain` starts with: the three locals are initialised to 0. -/
def timers_start : Timers :=
  { prev_tcp_time := 0, prev_status_time := 0, prev_etharp_time := 0 }

/-- Every probe `send` fails: all client ends are closed. -/
def probe_dead : Nat → Int :=
  fun _ => -1

/-- Two pump rounds: the stack refuses the write of the first round; the second round reads
another byte, which the stack would take. -/
def refuse_then_take : List WriteInput :=
  [{ snd_buf := 1, rd := [1], err := ERR_MEM }, { snd_buf := 1, rd := [2], err := ERR_OK }]

/-! ## Theorems -/

/-! ### C1 -/

/-- C1, counterexample: closing session 7 of `tap_one` leaves `conn_a`, whose `rpcSock` is 7,
in `tcp_connections`. -/
theorem closeClient_keeps_bound_connection :
    ¬ (∀ c ∈ (closeClient tap_one 7).tcp_connections, c.rpcSock ≠ 7) := by
  decide

/-- C1, amended: `closeClient` erases the session from `rpc_sockets` and leaves
`tcp_connections` as it was, and the unix-close callback changes nothing; so no connection
bound to the session remains afterwards exactly when none was bound to it before. -/
theorem closeClient_registry_unchanged (st : Tap) (s : Nat) :
    (closeClient st s).tcp_connections = st.tcp_connections ∧
    (closeClient st s).rpc_sockets = st.rpc_sockets.erase s ∧
    phyOnUnixClose st s = st ∧
    ((∀ c ∈ (closeClient st s).tcp_connections, c.rpcSock ≠ s) ↔
      (∀ c ∈ st.tcp_connections, c.rpcSock ≠ s)) := by
  simp [closeClient, phyOnUnixClose, Tap.emit]

/-! ### C2 -/

theorem bytes_handed_append (a b : List Event) :
    bytes_handed (a ++ b) = bytes_handed a ++ bytes_handed b := by
  simp [bytes_handed]

theorem bytes_read_append (a b : List Event) :
    bytes_read (a ++ b) = bytes_read a ++ bytes_read b := by
  simp [bytes_read]

theorem take_read_store (buf d : List Nat) : (read_store buf d).take d.length = d := by
  simp [read_store]

/-- A pump round on a buffered connection that reads bytes stores them outside `buf`. -/
theorem handle_write_conn_outside_buf (M : Nat) (c : TcpConnection) (inp : WriteInput)
    (h0 : c.idx ≠ 0) (h1 : c.idx < M) (h2 : c.pcb ≠ 0) (h3 : inp.snd_buf ≠ 0)
    (h4 : c.dataSock ≠ 0) (h5 : inp.rd ≠ []) :
    handle_write_conn M c inp = .undefined := by
  have h5l : inp.rd.length > 0 := List.length_pos.mpr h5
  simp [handle_write_conn, h0, h1, h2, h3, h4, h5l]

/-- A pump round that returns has handed to `tcp_write` exactly the bytes it read. -/
theorem handle_write_conn_hands_what_it_read (M : Nat) (c : TcpConnection) (inp : WriteInput)
    (r : TcpConnection × List Event) (h : handle_write_conn M c inp = .ok r) :
    bytes_handed r.2 = bytes_read r.2 := by
  have ht := take_read_store c.buf inp.rd
  unfold handle_write_conn at h
  by_cases h1 : c.idx < M
  · by_cases h2 : c.pcb = 0
    · simp [h1, h2] at h
      subst h
      simp [bytes_handed, bytes_read]
    · by_cases h3 : inp.snd_buf = 0
      · simp [h1, h2, h3] at h
        subst h
        simp [bytes_handed, bytes_read]
      · by_cases h4 : c.dataSock = 0
        · simp [h1, h2, h3, h4] at h
          subst h
          cases hl : c.listening <;> simp [hl, bytes_handed, bytes_read]
        · by_cases h5 : inp.rd.length > 0
          · by_cases h7 : c.idx = 0
            · have h1z : 0 < M := by omega
              by_cases h6 : inp.err = ERR_OK
              · simp [h1z, h2, h3, h4, h5, h6, h7] at h
                subst h
                cases hl : c.listening <;> simp [hl, bytes_handed, bytes_read, ht]
              · simp [h1z, h2, h3, h4, h5, h6, h7] at h
                subst h
                cases hl : c.listening <;> simp [hl, bytes_handed, bytes_read, ht]
            · simp [h1, h2, h3, h4, h5, h7] at h
          · have h5z : inp.rd = [] := by
              apply List.eq_nil_of_length_eq_zero
              omega
            simp [h1, h2, h3, h4, h5z] at h
            subst h
            cases hl : c.listening <;> simp [hl, h5z, bytes_handed, bytes_read]
  · simp [h1] at h
    subst h
    simp [bytes_handed, bytes_read]

/-- Along every sequence of pump rounds that returns, the byte ranges handed to `tcp_write`
are, concatenated, the bytes read from `local_end`. -/
theorem handle_write_seq_hands_what_it_read (M : Nat) (inps : List WriteInput) :
    ∀ (c : TcpConnection) (r : TcpConnection × List Event),
      handle_write_seq M c inps = .ok r → bytes_handed r.2 = bytes_read r.2 := by
  induction inps with
  | nil =>
    intro c r h
    simp [handle_write_seq] at h
    subst h
    simp [bytes_handed, bytes_read]
  | cons inp rest ih =>
    intro c r h
    simp only [handle_write_seq] at h
    cases h1 : handle_write_conn M c inp with
    | ok r1 =>
      rw [h1] at h
      simp only at h
      cases h2 : handle_write_seq M r1.1 rest with
      | ok r2 =>
        rw [h2] at h
        simp only [Outcome.ok.injEq] at h
        subst h
        simp only [bytes_handed_append, bytes_read_append]
        rw [handle_write_conn_hands_what_it_read M c inp r1 h1, ih r1.1 r2 h2]
      | exited => rw [h2] at h; simp at h
      | undefined => rw [h2] at h; simp at h
      | out_of_fuel => rw [h2] at h; simp at h
    | exited => rw [h1] at h; simp at h
    | undefined => rw [h1] at h; simp at h
    | out_of_fuel => rw [h1] at h; simp at h

/-- C2, the code at the failing input: the stack refuses the write of the first round, which
leaves `idx = 1`; the `read` of the second round is given the address `(&conn->buf)+1`, so
the byte 2 it reads is stored outside `buf` and is not what `tcp_write` would be handed. -/
theorem handle_write_reads_outside_buf_after_refusal :
    handle_write_seq 2048 conn_a [refused_round]
      = .ok (conn_one, [Event.tcp_output 9, Event.read 8 1 [1],
          Event.tcp_write 9 [1] ERR_MEM, Event.tcp_output 9]) ∧
    handle_write_seq 2048 conn_a refuse_then_take = .undefined := by
  decide

/-! ### Registry lemmas -/

theorem find_addr_append_cons (pre post : List TcpConnection) (x : TcpConnection)
    (hx : ∀ y ∈ pre, y.addr ≠ x.addr) :
    (pre ++ x :: post).find? (fun y => y.addr == x.addr) = some x := by
  induction pre with
  | nil => simp
  | cons a pre ih =>
    have ha : a.addr ≠ x.addr := hx a (by simp)
    simp only [List.cons_append, List.find?_cons]
    have : (a.addr == x.addr) = false := by simpa using ha
    rw [this]
    exact ih (fun y hy => hx y (by simp [hy]))

theorem eraseP_addr_append_cons (pre post : List TcpConnection) (x : TcpConnection)
    (hx : ∀ y ∈ pre, y.addr ≠ x.addr) :
    (pre ++ x :: post).eraseP (fun y => y.addr == x.addr) = pre ++ post := by
  induction pre with
  | nil => simp
  | cons a pre ih =>
    have ha : a.addr ≠ x.addr := hx a (by simp)
    have hb : (a.addr == x.addr) = false := by simpa using ha
    simp only [List.cons_append]
    rw [List.eraseP_cons, hb]
    simp only [cond_false]
    rw [ih (fun y hy => hx y (by simp [hy]))]

theorem find_addr_skip (pre post : List TcpConnection) (x : TcpConnection) (conn : Nat)
    (hx : x.addr ≠ conn) :
    (pre ++ post).find? (fun y => y.addr == conn)
      = (pre ++ x :: post).find? (fun y => y.addr == conn) := by
  have hb : (x.addr == conn) = false := by simpa using hx
  simp [List.find?_append, List.find?_cons, hb]

theorem nodup_addr_split (pre post : List TcpConnection) (x : TcpConnection)
    (h : ((pre ++ x :: post).map (fun y => y.addr)).Nodup) :
    (∀ y ∈ pre, y.addr ≠ x.addr) ∧ (∀ y ∈ post, y.addr ≠ x.addr) ∧
      ((pre ++ post).map (fun y => y.addr)).Nodup := by
  simp only [List.map_append, List.map_cons] at h
  have h1 := List.nodup_middle.mp h
  rw [List.nodup_cons] at h1
  obtain ⟨hn, hnd⟩ := h1
  simp only [List.mem_append, List.mem_map, not_or, not_exists, not_and] at hn
  refine ⟨fun y hy e => hn.1 y hy e, fun y hy e => hn.2 y hy e, ?_⟩
  simpa using hnd

theorem getElem_at_length (pre rest : List TcpConnection) :
    (pre ++ rest)[pre.length]? = rest.head? := by
  cases rest with
  | nil => simp
  | cons x r =>
    rw [List.getElem?_append_right (Nat.le_refl _)]
    simp

/-- Without a duplicate from index `pre.length` on, the loop changes nothing. -/
theorem handle_retval_loop_no_duplicate (probe : Nat → Int) (conn : Nat) :
    ∀ (fuel : Nat) (rest pre : List TcpConnection) (st : Tap) (c : TcpConnection),
      st.tcp_connections = pre ++ rest → st.deref conn = some c →
      (∀ y ∈ rest, is_duplicate c conn y = false) → rest.length ≤ fuel →
      handle_retval_loop probe conn fuel pre.length st = .ok st := by
  intro fuel
  induction fuel with
  | zero =>
    intro rest pre st c hL _ _ hlen
    have : rest = [] := List.eq_nil_of_length_eq_zero (by omega)
    subst this
    simp [handle_retval_loop, hL]
  | succ fuel ih =>
    intro rest pre st c hL hc hnd hlen
    cases rest with
    | nil => simp [handle_retval_loop, hL]
    | cons x rest =>
      have hget : st.tcp_connections[pre.length]? = some x := by
        rw [hL, getElem_at_length]; rfl
      have hnext : handle_retval_loop probe conn fuel (pre.length + 1) st = .ok st := by
        have := ih rest (pre ++ [x]) st c (by simp [hL]) hc
          (fun y hy => hnd y (by simp [hy])) (by simpa using hlen)
        simpa using this
      have hx := hnd x (by simp)
      unfold handle_retval_loop
      simp only [hget, hc]
      by_cases h1 : x.addr = conn
      · simp [h1, hnext]
      · by_cases h2 : x.rpcSock = c.rpcSock
        · by_cases h3 : x.perceived_fd = c.perceived_fd
          · simp [is_duplicate, h1, h2, h3] at hx
          · simp [h1, h2, h3, hnext]
        · simp [h1, h2, hnext]

theorem handle_retval_loop_done (probe : Nat → Int) (conn fuel i : Nat) (st : Tap)
    (h : st.tcp_connections[i]? = none) :
    handle_retval_loop probe conn fuel i st = .ok st := by
  cases fuel <;> simp [handle_retval_loop, h]

theorem replies_append (a b : List Event) : replies (a ++ b) = replies a ++ replies b := by
  simp [replies, List.filterMap_append]

theorem replies_close_events (c : TcpConnection) : replies (close_events c) = [] := by
  by_cases h0 : c.dataSock = 0 <;> simp [close_events, replies, h0]

theorem closeConnection_registered (st : Tap) (pre post : List TcpConnection)
    (x : TcpConnection) (hL : st.tcp_connections = pre ++ x :: post)
    (hx : ∀ y ∈ pre, y.addr ≠ x.addr) :
    ∃ st2, closeConnection st x.addr = .ok st2 ∧ st2.tcp_connections = pre ++ post ∧
      st2.rpc_sockets = st.rpc_sockets ∧ st2.ips = st.ips ∧
      st2.trace = st.trace ++ close_events x := by
  have hd : st.deref x.addr = some x := by
    unfold Tap.deref
    rw [hL]
    exact find_addr_append_cons pre post x hx
  unfold closeConnection
  simp only [hd]
  exact ⟨_, rfl, by simp [Tap.emit, hL, eraseP_addr_append_cons pre post x hx], rfl, rfl, rfl⟩

/-- The duplicate search when at most one duplicate is ahead and every duplicate is stale:
the search ends, and the registry afterwards is the registry without the duplicates. -/
theorem handle_retval_loop_spec (probe : Nat → Int) (conn : Nat) :
    ∀ (fuel : Nat) (rest pre : List TcpConnection) (st : Tap) (c : TcpConnection),
      st.tcp_connections = pre ++ rest → st.deref conn = some c →
      ((pre ++ rest).map (fun y => y.addr)).Nodup →
      (∀ y ∈ rest, ∀ z ∈ rest, is_duplicate c conn y = true → is_duplicate c conn z = true →
        y.addr = z.addr) →
      (∀ y ∈ rest, is_duplicate c conn y = true → probe y.dataSock < 0) →
      rest.length ≤ fuel →
      ∃ st2, handle_retval_loop probe conn fuel pre.length st = .ok st2 ∧
        st2.tcp_connections = pre ++ rest.filter (fun y => !is_duplicate c conn y) ∧
        st2.rpc_sockets = st.rpc_sockets ∧ st2.ips = st.ips ∧
        replies st2.trace = replies st.trace := by
  intro fuel
  induction fuel with
  | zero =>
    intro rest pre st c hL _ _ _ _ hlen
    have : rest = [] := List.eq_nil_of_length_eq_zero (by omega)
    subst this
    exact ⟨st, by simp [handle_retval_loop, hL], by simpa using hL, rfl, rfl, rfl⟩
  | succ fuel ih =>
    intro rest pre st c hL hc hnd huniq hstale hlen
    cases rest with
    | nil => exact ⟨st, by simp [handle_retval_loop, hL], by simpa using hL, rfl, rfl, rfl⟩
    | cons x rest =>
      have hget : st.tcp_connections[pre.length]? = some x := by
        rw [hL, getElem_at_length]; rfl
      by_cases hdup : is_duplicate c conn x = true
      · -- the entry is a stale duplicate: it is erased, and nothing behind it is a duplicate
        obtain ⟨hpre, hpost, hnd2⟩ := nodup_addr_split pre rest x hnd
        have hrest : ∀ y ∈ rest, is_duplicate c conn y = false := by
          intro y hy
          by_contra hy2
          have hy3 : is_duplicate c conn y = true := by simpa using hy2
          exact hpost y hy (huniq y (by simp [hy]) x (by simp) hy3 hdup)
        have hprobe := hstale x (by simp) hdup
        have hxd := hdup
        simp only [is_duplicate, Bool.and_eq_true, bne_iff_ne, ne_eq, beq_iff_eq] at hdup
        obtain ⟨⟨h1, h2⟩, h3⟩ := hdup
        obtain ⟨st2, hclose, hL2, hr2, hi2, ht2⟩ := closeConnection_registered
          (st.emit [.send_probe x.dataSock (probe x.dataSock)]) pre rest x
          (by simpa [Tap.emit] using hL) hpre
        have hc2 : st2.deref conn = some c := by
          unfold Tap.deref
          rw [hL2, find_addr_skip pre rest x conn h1, ← hL]
          exact hc
        have hloop : handle_retval_loop probe conn fuel (pre.length + 1) st2 = .ok st2 := by
          cases rest with
          | nil =>
            apply handle_retval_loop_done
            simp [hL2]
          | cons y rest =>
            have := handle_retval_loop_no_duplicate probe conn fuel rest (pre ++ [y]) st2 c
              (by simp [hL2]) hc2 (fun z hz => hrest z (by simp [hz]))
              (by simp at hlen; omega)
            simpa using this
        refine ⟨st2, ?_, ?_, ?_, ?_, ?_⟩
        · unfold handle_retval_loop
          simp [hget, hc, h1, h2, h3, hprobe, hclose, Outcome.bind, hloop]
        · have hf : rest.filter (fun y => !is_duplicate c conn y) = rest := by
            apply List.filter_eq_self.mpr
            intro y hy
            simp [hrest y hy]
          simp [hL2, List.filter_cons, hxd, hf]
        · simpa [Tap.emit] using hr2
        · simpa [Tap.emit] using hi2
        · rw [ht2]
          simp only [Tap.emit, replies_append, replies_close_events, List.append_nil]
          simp [replies]
      · -- the entry stays
        have hdup2 : is_duplicate c conn x = false := by simpa using hdup
        obtain ⟨st2, hloop, hL2, hrest2⟩ := ih rest (pre ++ [x]) st c (by simp [hL]) hc
          (by simpa using hnd)
          (fun y hy z hz => huniq y (by simp [hy]) z (by simp [hz]))
          (fun y hy => hstale y (by simp [hy])) (by simpa using hlen)
        have hloop2 : handle_retval_loop probe conn fuel (pre.length + 1) st = .ok st2 := by
          simpa using hloop
        refine ⟨st2, ?_, ?_, hrest2⟩
        · unfold handle_retval_loop
          simp only [hget, hc]
          by_cases h1 : x.addr = conn
          · simp [h1, hloop2]
          · by_cases h2 : x.rpcSock = c.rpcSock
            · by_cases h3 : x.perceived_fd = c.perceived_fd
              · simp [is_duplicate, h1, h2, h3] at hdup2
              · simp [h1, h2, h3, hloop2]
            · simp [h1, h2, hloop2]
        · simp [hL2, List.filter_cons, hdup2]

theorem deref_mem (st : Tap) (p : Nat) (c : TcpConnection) (h : st.deref p = some c) :
    c ∈ st.tcp_connections ∧ c.addr = p := by
  unfold Tap.deref at h
  exact ⟨List.mem_of_find?_eq_some h, by simpa using List.find?_some h⟩

theorem deref_of_mem (st : Tap) (c : TcpConnection)
    (hnd : (st.tcp_connections.map (fun y => y.addr)).Nodup) (h : c ∈ st.tcp_connections) :
    st.deref c.addr = some c := by
  obtain ⟨pre, post, hL⟩ := List.append_of_mem h
  unfold Tap.deref
  rw [hL] at hnd ⊢
  exact find_addr_append_cons pre post c (nodup_addr_split pre post c hnd).1

theorem modify_addrs (st : Tap) (p : Nat) (f : TcpConnection → TcpConnection)
    (hf : ∀ x, (f x).addr = x.addr) :
    (st.modify p f).tcp_connections.map (fun y => y.addr)
      = st.tcp_connections.map (fun y => y.addr) := by
  simp only [Tap.modify, List.map_map]
  apply List.map_congr_left
  intro x _
  by_cases h : x.addr = p <;> simp [h, hf]

theorem find_addr_map_update (p : Nat) (f : TcpConnection → TcpConnection)
    (c : TcpConnection) (hf : ∀ x, (f x).addr = x.addr) :
    ∀ l : List TcpConnection, l.find? (fun y => y.addr == p) = some c →
      (l.map (fun x => if x.addr == p then f x else x)).find? (fun y => y.addr == p)
        = some (f c) := by
  intro l
  induction l with
  | nil => intro h; simp at h
  | cons a l ih =>
    intro h
    by_cases ha : a.addr = p
    · simp [List.find?_cons, ha] at h
      subst h
      have hfa : ((f a).addr == p) = true := by simp [hf, ha]
      have hab : (a.addr == p) = true := by simp [ha]
      simp only [List.map_cons, List.find?_cons, hab, if_true, hfa]
    · have hb : (a.addr == p) = false := by simpa using ha
      simp only [List.find?_cons, hb] at h
      simp only [List.map_cons, List.find?_cons, hb, Bool.false_eq_true, ↓reduceIte]
      exact ih h

theorem deref_modify (st : Tap) (p : Nat) (f : TcpConnection → TcpConnection)
    (c : TcpConnection) (hf : ∀ x, (f x).addr = x.addr) (h : st.deref p = some c) :
    (st.modify p f).deref p = some (f c) :=
  find_addr_map_update p f c hf st.tcp_connections h

theorem mem_modify (st : Tap) (p : Nat) (f : TcpConnection → TcpConnection)
    (hf : ∀ x, (f x).addr = x.addr) (y : TcpConnection)
    (hy : y ∈ (st.modify p f).tcp_connections) (hp : y.addr ≠ p) :
    y ∈ st.tcp_connections := by
  simp only [Tap.modify, List.mem_map] at hy
  obtain ⟨x, hx, rfl⟩ := hy
  by_cases h : x.addr = p
  · simp [h, hf] at hp
  · simpa [h] using hx

/-! ### C3 -/

/-- C3: `peer_fd` uniqueness is preserved by RPC_MAP.  Let `c` be the pending connection of
session `s` that the MAP is for (`*uptr`), let no two registered connections of `s` other than
`c` share a `perceived_fd`, and let every other connection of `s` holding `perceived_fd = fd`
have a dead `local_end` (the probe `send` returns a negative value).  Then `handle_retval`
returns (no `exit`), `c` has `perceived_fd = fd` and is no longer pending, each such stale
connection is gone from `tcp_connections`, and no two registered connections of `s` share a
`perceived_fd`. -/
theorem handle_retval_keeps_peer_fd_unique (st : Tap) (s p : Nat) (c : TcpConnection)
    (fd : Int) (probe : Nat → Int)
    (hnd : (st.tcp_connections.map (fun y => y.addr)).Nodup)
    (hc : st.deref p = some c) (hs : c.rpcSock = s) (hp : c.pending = true)
    (huniq : ∀ x ∈ st.tcp_connections, ∀ y ∈ st.tcp_connections, x.addr ≠ p → y.addr ≠ p →
      x.rpcSock = s → y.rpcSock = s → x.perceived_fd = y.perceived_fd → x = y)
    (hstale : ∀ x ∈ st.tcp_connections, x.addr ≠ p → x.rpcSock = s → x.perceived_fd = fd →
      probe x.dataSock < 0) :
    ∃ st2, handle_retval st s (some p) fd probe = .ok st2 ∧
      st2.deref p = some { c with perceived_fd := fd, pending := false } ∧
      (∀ x ∈ st.tcp_connections, x.addr ≠ p → x.rpcSock = s → x.perceived_fd = fd →
        st2.deref x.addr = none) ∧
      (∀ x ∈ st2.tcp_connections, ∀ y ∈ st2.tcp_connections,
        x.rpcSock = s → y.rpcSock = s → x.perceived_fd = y.perceived_fd → x = y) := by
  have hf : ∀ x : TcpConnection,
      ({ x with perceived_fd := fd, pending := false } : TcpConnection).addr = x.addr :=
    fun _ => rfl
  have hc1 := deref_modify st p (fun x => { x with perceived_fd := fd, pending := false }) c hf hc
  have hnd1 : ((st.modify p (fun x => { x with perceived_fd := fd, pending := false })
      ).tcp_connections.map (fun y => y.addr)).Nodup := by
    rw [modify_addrs st p _ hf]; exact hnd
  have hmem := mem_modify st p (fun x => { x with perceived_fd := fd, pending := false }) hf
  obtain ⟨st2, hloop, hL2, -, -, -⟩ := handle_retval_loop_spec probe p
    (st.modify p (fun x => { x with perceived_fd := fd, pending := false })).tcp_connections.length
    (st.modify p (fun x => { x with perceived_fd := fd, pending := false })).tcp_connections []
    (st.modify p (fun x => { x with perceived_fd := fd, pending := false }))
    { c with perceived_fd := fd, pending := false } (by simp) hc1 (by simpa using hnd1)
    (by
      intro y hy z hz hdy hdz
      simp only [is_duplicate, Bool.and_eq_true, bne_iff_ne, ne_eq, beq_iff_eq] at hdy hdz
      have := huniq y (hmem y hy hdy.1.1) z (hmem z hz hdz.1.1) hdy.1.1 hdz.1.1
        (hdy.1.2.trans hs) (hdz.1.2.trans hs) (hdy.2.trans hdz.2.symm)
      rw [this])
    (by
      intro y hy hdy
      simp only [is_duplicate, Bool.and_eq_true, bne_iff_ne, ne_eq, beq_iff_eq] at hdy
      exact hstale y (hmem y hy hdy.1.1) hdy.1.1 (hdy.1.2.trans hs) hdy.2)
    (Nat.le_refl _)
  simp only [List.nil_append, List.length_nil] at hL2 hloop
  have hin : ∀ y ∈ st2.tcp_connections,
      y ∈ (st.modify p (fun x => { x with perceived_fd := fd, pending := false })).tcp_connections
      ∧ is_duplicate { c with perceived_fd := fd, pending := false } p y = false := by
    intro y hy
    rw [hL2, List.mem_filter] at hy
    exact ⟨hy.1, by simpa using hy.2⟩
  have hnd2 : (st2.tcp_connections.map (fun y => y.addr)).Nodup := by
    rw [hL2]
    exact hnd1.sublist (List.Sublist.map _ (List.filter_sublist _))
  refine ⟨st2, ?_, ?_, ?_, ?_⟩
  · unfold handle_retval
    simp only [hc, hp]
    simpa using hloop
  · have hcm := (deref_mem _ p _ hc1)
    have : ({ c with perceived_fd := fd, pending := false } : TcpConnection)
        ∈ st2.tcp_connections := by
      rw [hL2, List.mem_filter]
      refine ⟨hcm.1, ?_⟩
      have : c.addr = p := (deref_mem st p c hc).2
      simp [is_duplicate, this]
    have h3 := deref_of_mem st2 _ hnd2 this
    have : c.addr = p := (deref_mem st p c hc).2
    simpa [this] using h3
  · intro x hx hxp hxs hxf
    unfold Tap.deref
    rw [List.find?_eq_none]
    intro y hy hyx
    have hyx2 : y.addr = x.addr := by simpa using hyx
    obtain ⟨hy1, hy2⟩ := hin y hy
    have hyL : y ∈ st.tcp_connections := hmem y hy1 (by rw [hyx2]; exact hxp)
    have hxy : y = x := List.inj_on_of_nodup_map hnd hyL hx hyx2
    subst hxy
    simp [is_duplicate, hxp, hxs, hs, hxf] at hy2
  · intro x hx y hy hxs hys hxy
    obtain ⟨hx1, hx2⟩ := hin x hx
    obtain ⟨hy1, hy2⟩ := hin y hy
    have hcm := (deref_mem _ p _ hc1)
    by_cases hxp : x.addr = p
    · by_cases hyp : y.addr = p
      · exact List.inj_on_of_nodup_map hnd2 hx hy (hxp.trans hyp.symm)
      · exfalso
        have hxe : x = { c with perceived_fd := fd, pending := false } :=
          List.inj_on_of_nodup_map hnd1 hx1 hcm.1 (hxp.trans hcm.2.symm)
        have hxfd : x.perceived_fd = fd := by rw [hxe]
        simp [is_duplicate, hyp, hys, hs, ← hxy, hxfd] at hy2
    · by_cases hyp : y.addr = p
      · exfalso
        have hye : y = { c with perceived_fd := fd, pending := false } :=
          List.inj_on_of_nodup_map hnd1 hy1 hcm.1 (hyp.trans hcm.2.symm)
        have hyfd : y.perceived_fd = fd := by rw [hye]
        simp [is_duplicate, hxp, hxs, hs, hxy, hyfd] at hx2
      · exact huniq x (hmem x hx1 hxp) y (hmem y hy1 hyp) hxp hyp hxs hys hxy

/-- C3, witness: session 7 holds the stale `conn_a` mapped to 17 and the pending `conn_b`;
MAP(17) for `conn_b` removes `conn_a`. -/
theorem handle_retval_keeps_peer_fd_unique_witness :
    ∃ st2, handle_retval tap_two 7 (some 200) 17 probe_dead = .ok st2 ∧
      st2.deref 200 = some { conn_b with perceived_fd := 17, pending := false } ∧
      (∀ x ∈ tap_two.tcp_connections, x.addr ≠ 200 → x.rpcSock = 7 → x.perceived_fd = 17 →
        st2.deref x.addr = none) ∧
      (∀ x ∈ st2.tcp_connections, ∀ y ∈ st2.tcp_connections,
        x.rpcSock = 7 → y.rpcSock = 7 → x.perceived_fd = y.perceived_fd → x = y) :=
  handle_retval_keeps_peer_fd_unique tap_two 7 200 conn_b 17 probe_dead
    (by decide) (by decide) (by decide) (by decide) (by decide) (by decide)

/-- When two stale connections of the session holding the same `perceived_fd` are next to
each other in the vector (a registry in which `perceived_fd` is already not unique), the
index has moved past the second one when the first has been erased, and the second one stays
registered. -/
theorem handle_retval_skips_entry_after_erase :
    ∃ st2, handle_retval tap_stale_pair 7 (some 200) 17 probe_dead = .ok st2 ∧
      st2.tcp_connections = [conn_a2, { conn_b with perceived_fd := 17, pending := false }] :=
  ⟨_, rfl, rfl⟩

/-! ### C4 -/

/-- C4, the code at the failing input: after SOCKET, MAP(17), BIND, LISTEN and `nc_accept`
on session 7, the client's MAP(23) is handled on the session's user pointer, which is still
the listening connection (not pending); the child at address 200 stays pending with its
initial `perceived_fd`, and `getConnectionByTheirFD(7, 23)` finds nothing. -/
theorem accept_child_mapping_is_lost :
    ∃ st k, accept_scenario = .ok st ∧ st.deref 200 = some k ∧ k.rpcSock = 7 ∧
      k.pending = true ∧ k.perceived_fd ≠ 23 ∧ getConnectionByTheirFD st 7 23 = none :=
  ⟨_, _, rfl, rfl, by decide, by decide, by decide, by decide⟩

/-! ### C5 -/

/-- The duplicate search returns or exits, and when it returns the connection it runs for is
registered as before. -/
theorem handle_retval_loop_returns (probe : Nat → Int) (conn : Nat) :
    ∀ (fuel : Nat) (rest pre : List TcpConnection) (st : Tap) (c : TcpConnection),
      st.tcp_connections = pre ++ rest → st.deref conn = some c →
      ((pre ++ rest).map (fun y => y.addr)).Nodup → rest.length ≤ fuel →
      handle_retval_loop probe conn fuel pre.length st = .exited ∨
      ∃ st2, handle_retval_loop probe conn fuel pre.length st = .ok st2 ∧
        st2.deref conn = some c := by
  intro fuel
  induction fuel with
  | zero =>
    intro rest pre st c hL hc _ hlen
    have : rest = [] := List.eq_nil_of_length_eq_zero (by omega)
    subst this
    exact Or.inr ⟨st, by simp [handle_retval_loop, hL], hc⟩
  | succ fuel ih =>
    intro rest pre st c hL hc hnd hlen
    cases rest with
    | nil => exact Or.inr ⟨st, by simp [handle_retval_loop, hL], hc⟩
    | cons x rest =>
      have hget : st.tcp_connections[pre.length]? = some x := by
        rw [hL, getElem_at_length]; rfl
      have hnext := ih rest (pre ++ [x]) st c (by simp [hL]) hc (by simpa using hnd)
        (by simpa using hlen)
      simp only [List.length_append, List.length_singleton] at hnext
      unfold handle_retval_loop
      simp only [hget, hc]
      by_cases h1 : x.addr = conn
      · simpa [h1] using hnext
      · by_cases h2 : x.rpcSock = c.rpcSock
        · by_cases h3 : x.perceived_fd = c.perceived_fd
          · by_cases h4 : probe x.dataSock < 0
            · obtain ⟨hpre, -, hnd2⟩ := nodup_addr_split pre rest x hnd
              obtain ⟨st2, hclose, hL2, -, -, -⟩ := closeConnection_registered
                (st.emit [.send_probe x.dataSock (probe x.dataSock)]) pre rest x
                (by simpa [Tap.emit] using hL) hpre
              have hc2 : st2.deref conn = some c := by
                unfold Tap.deref
                rw [hL2, find_addr_skip pre rest x conn h1, ← hL]
                exact hc
              simp only [h1, h2, h3, h4, hclose, Outcome.bind, beq_self_eq_true, if_true,
                beq_iff_eq, if_false]
              cases rest with
              | nil =>
                exact Or.inr ⟨st2, handle_retval_loop_done probe conn fuel _ st2
                  (by simp [hL2]), hc2⟩
              | cons y rest =>
                have := ih rest (pre ++ [y]) st2 c (by simp [hL2]) hc2 (by simpa using hnd2)
                  (by simp at hlen; omega)
                simpa using this
            · simp [h1, h2, h3, h4]
          · simpa [h1, h2, h3] using hnext
        · simpa [h1, h2] using hnext

/-- C5: for the pending connection `c` of session `s` that the MAP is for (`*uptr`),
`handle_retval` with payload `fd`, whenever it returns, leaves `c.perceived_fd = fd` and
`c.pending = false` (it can only fail to return by the `exit` of the duplicate check); and
when no other connection of `s` has `perceived_fd = fd` it returns, the registered connections
are the same objects, and every other connection is unchanged. -/
theorem handle_retval_maps_pending (st : Tap) (s p : Nat) (c : TcpConnection) (fd : Int)
    (probe : Nat → Int)
    (hnd : (st.tcp_connections.map (fun y => y.addr)).Nodup)
    (hc : st.deref p = some c) (hs : c.rpcSock = s) (hp : c.pending = true) :
    (handle_retval st s (some p) fd probe = .exited ∨
      ∃ st2, handle_retval st s (some p) fd probe = .ok st2 ∧
        st2.deref p = some { c with perceived_fd := fd, pending := false }) ∧
    ((∀ x ∈ st.tcp_connections, x.addr ≠ p → x.rpcSock = s → x.perceived_fd ≠ fd) →
      ∃ st2, handle_retval st s (some p) fd probe = .ok st2 ∧
        st2.deref p = some { c with perceived_fd := fd, pending := false } ∧
        st2.tcp_connections.map (fun y => y.addr) = st.tcp_connections.map (fun y => y.addr) ∧
        (∀ x ∈ st.tcp_connections, x.addr ≠ p → st2.deref x.addr = some x) ∧
        st2.rpc_sockets = st.rpc_sockets ∧ st2.trace = st.trace) := by
  have hf : ∀ x : TcpConnection,
      ({ x with perceived_fd := fd, pending := false } : TcpConnection).addr = x.addr :=
    fun _ => rfl
  have hc1 := deref_modify st p (fun x => { x with perceived_fd := fd, pending := false }) c hf hc
  have haddr := modify_addrs st p (fun x => { x with perceived_fd := fd, pending := false }) hf
  have hnd1 : ((st.modify p (fun x => { x with perceived_fd := fd, pending := false })
      ).tcp_connections.map (fun y => y.addr)).Nodup := by
    rw [haddr]; exact hnd
  have hmem := mem_modify st p (fun x => { x with perceived_fd := fd, pending := false }) hf
  have hunf : handle_retval st s (some p) fd probe = handle_retval_loop probe p
      (st.modify p (fun x => { x with perceived_fd := fd, pending := false })
        ).tcp_connections.length 0
      (st.modify p (fun x => { x with perceived_fd := fd, pending := false })) := by
    unfold handle_retval
    simp [hc, hp]
  constructor
  · rw [hunf]
    have := handle_retval_loop_returns probe p
      (st.modify p (fun x => { x with perceived_fd := fd, pending := false })
        ).tcp_connections.length
      (st.modify p (fun x => { x with perceived_fd := fd, pending := false })).tcp_connections []
      (st.modify p (fun x => { x with perceived_fd := fd, pending := false }))
      { c with perceived_fd := fd, pending := false } (by simp) hc1
      (by simpa using hnd1) (Nat.le_refl _)
    simpa using this
  · intro hno
    refine ⟨st.modify p (fun x => { x with perceived_fd := fd, pending := false }),
      ?_, hc1, haddr, ?_, rfl, rfl⟩
    · rw [hunf]
      have := handle_retval_loop_no_duplicate probe p
        (st.modify p (fun x => { x with perceived_fd := fd, pending := false })
          ).tcp_connections.length
        (st.modify p (fun x => { x with perceived_fd := fd, pending := false })).tcp_connections
        [] (st.modify p (fun x => { x with perceived_fd := fd, pending := false }))
        { c with perceived_fd := fd, pending := false } (by simp) hc1
        (by
          intro y hy
          by_cases hyp : y.addr = p
          · simp [is_duplicate, hyp]
          · have hyL := hmem y hy hyp
            by_cases hys : y.rpcSock = s
            · have := hno y hyL hyp hys
              simp [is_duplicate, this]
            · simp [is_duplicate, hs, hys])
        (Nat.le_refl _)
      simpa using this
    · intro x hx hxp
      apply deref_of_mem _ _ hnd1
      simp only [Tap.modify, List.mem_map]
      exact ⟨x, hx, by simp [hxp]⟩

/-- C5, witness: MAP(23) for the pending `conn_b` of `tap_two`, where no other connection
holds 23. -/
theorem handle_retval_maps_pending_witness :
    (∀ x ∈ tap_two.tcp_connections, x.addr ≠ 200 → x.rpcSock = 7 → x.perceived_fd ≠ 23) ∧
    ∃ st2, handle_retval tap_two 7 (some 200) 23 probe_dead = .ok st2 ∧
      st2.deref 200 = some { conn_b with perceived_fd := 23, pending := false } ∧
      st2.tcp_connections.map (fun y => y.addr) = tap_two.tcp_connections.map (fun y => y.addr) ∧
      (∀ x ∈ tap_two.tcp_connections, x.addr ≠ 200 → st2.deref x.addr = some x) ∧
      st2.rpc_sockets = tap_two.rpc_sockets ∧ st2.trace = tap_two.trace :=
  ⟨by decide, (handle_retval_maps_pending tap_two 7 200 conn_b 23 probe_dead
    (by decide) (by decide) (by decide) (by decide)).2 (by decide)⟩

/-! ### Replies -/

theorem Outcome.bind_ok {α β : Type} (a : α) (f : α → Outcome β) :
    (Outcome.ok a).bind f = f a :=
  rfl

theorem bind_calls_append (a b : List Event) :
    bind_calls (a ++ b) = bind_calls a ++ bind_calls b := by
  simp [bind_calls, List.filterMap_append]

theorem bind_calls_close_events (c : TcpConnection) : bind_calls (close_events c) = [] := by
  by_cases h0 : c.dataSock = 0 <;> simp [close_events, bind_calls, h0]

theorem replies_write_retval (c : TcpConnection) (s : Nat) (r e n : Int) :
    replies (Event.write_retval s r e n :: (if n > 0 then [] else close_events c))
      = [(s, r, e)] := by
  have h1 : replies (Event.write_retval s r e n :: (if n > 0 then [] else close_events c))
      = (s, r, e) :: replies (if n > 0 then [] else close_events c) := by
    simp [replies]
  rw [h1]
  by_cases hn : n > 0
  · simp [hn, replies]
  · simp only [hn, if_false, replies_close_events]

theorem bind_calls_write_retval (c : TcpConnection) (s : Nat) (r e n : Int) :
    bind_calls (Event.write_retval s r e n :: (if n > 0 then [] else close_events c))
      = [] := by
  have h1 : bind_calls (Event.write_retval s r e n :: (if n > 0 then [] else close_events c))
      = bind_calls (if n > 0 then [] else close_events c) := by
    simp [bind_calls]
  rw [h1]
  by_cases hn : n > 0
  · simp [hn, bind_calls]
  · simp only [hn, if_false, bind_calls_close_events]

/-- A reply for a registered connection: the record is written once on the connection's
session; a positive `write` result clears `pending`, any other result closes the connection. -/
theorem send_return_value_registered (st : Tap) (p : Nat) (c : TcpConnection)
    (r e n : Int) (hc : st.deref p = some c) :
    ∃ st2, send_return_value st (some p) r e n = .ok (st2, n) ∧
      st2.trace = st.trace ++ Event.write_retval c.rpcSock r e n ::
        (if n > 0 then [] else close_events c) ∧
      st2.rpc_sockets = st.rpc_sockets ∧ st2.ips = st.ips ∧
      (n > 0 → st2.tcp_connections
        = (st.modify p (fun x => { x with pending := false })).tcp_connections) ∧
      (¬ n > 0 → st2.tcp_connections
        = st.tcp_connections.eraseP (fun x => x.addr == p)) := by
  unfold send_return_value
  simp only [hc, send_return_value_fd]
  by_cases hn : n > 0
  · simp only [hn, if_true]
    exact ⟨_, rfl, by simp [Tap.modify, Tap.emit], rfl, rfl, fun _ => rfl, fun h => absurd trivial h⟩
  · have hd : (st.emit [Event.write_retval c.rpcSock r e n]).deref p = some c := hc
    simp only [hn, if_false, closeConnection, hd, Outcome.bind]
    exact ⟨_, rfl, by simp [Tap.emit], rfl, rfl, fun h => absurd h (by simp), fun _ => rfl⟩

/-! ### C6 -/

/-- C6, the code at the failing input: on a session without a socket (`*uptr` is `NULL`)
RPC_MAP_REQ gets no reply.  With an empty registry `send_return_value` is called with the
`NULL` connection and writes nothing; with a connection of another session registered the
loop condition dereferences the `NULL` connection. -/
theorem handle_map_request_without_socket :
    handle_map_request tap_empty 7 none 5 9 = .ok tap_empty ∧
    handle_map_request tap_new_session 8 none 5 9 = .undefined :=
  ⟨rfl, rfl⟩

/-- RPC_MAP_REQ on a session whose user pointer is a registered connection, the reply being
written: the handler returns, one record is written on the connection's session, with
retval 1 when some registered connection of that session has the requested `perceived_fd`
and 0 otherwise, and only the `pending` flag of the connection changes. -/
theorem handle_map_request_registered (st : Tap) (s p : Nat) (c : TcpConnection) (fd n : Int)
    (hc : st.deref p = some c) (hn : n > 0) :
    ∃ st2, handle_map_request st s (some p) fd n = .ok st2 ∧
      replies st2.trace = replies st.trace ++
        [(c.rpcSock, (if st.tcp_connections.any
            (fun x => x.rpcSock == c.rpcSock && x.perceived_fd == fd) then 1 else 0), 0)] ∧
      st2.tcp_connections
        = (st.modify p (fun x => { x with pending := false })).tcp_connections := by
  have hne : st.tcp_connections ≠ [] := by
    intro h
    simp [Tap.deref, h] at hc
  obtain ⟨a, l, hl⟩ := List.exists_cons_of_ne_nil hne
  unfold handle_map_request
  rw [hl]
  simp only
  rw [← hl, hc]
  simp only
  by_cases hany : st.tcp_connections.any
      (fun x => x.rpcSock == c.rpcSock && x.perceived_fd == fd) = true
  · obtain ⟨st2, hsend, htr, -, -, hpos, -⟩ := send_return_value_registered st p c 1 ERR_OK n hc
    have hex : ∃ x ∈ st.tcp_connections,
        (fun x : TcpConnection => x.rpcSock == c.rpcSock && x.perceived_fd == fd) x = true :=
      List.any_eq_true.mp hany
    have hi := List.findIdx_lt_length_of_exists hex
    have hlen : st2.tcp_connections.length = st.tcp_connections.length := by
      rw [hpos hn]
      simp [Tap.modify]
    refine ⟨st2, ?_, ?_, hpos hn⟩
    · rw [if_pos hany, hsend, Outcome.bind_ok]
      simp only
      rw [hlen, if_pos hi]
    · rw [htr, replies_append, replies_write_retval]
      simp [hany, ERR_OK]
  · obtain ⟨st2, hsend, htr, -, -, hpos, -⟩ := send_return_value_registered st p c 0 ERR_OK n hc
    refine ⟨st2, by simp [hany, hsend, Outcome.bind], ?_, hpos hn⟩
    rw [htr, replies_append, replies_write_retval]
    simp [hany, ERR_OK]

/-- RPC_MAP_REQ on a session whose user pointer is a registered connection, whatever `write`
returns: when the handler returns, the record it has written is the one above. -/
theorem handle_map_request_reply (st : Tap) (s p : Nat) (c : TcpConnection) (fd n : Int)
    (hc : st.deref p = some c) (st2 : Tap)
    (h : handle_map_request st s (some p) fd n = .ok st2) :
    replies st2.trace = replies st.trace ++
      [(c.rpcSock, (if st.tcp_connections.any
          (fun x => x.rpcSock == c.rpcSock && x.perceived_fd == fd) then 1 else 0), 0)] := by
  have hne : st.tcp_connections ≠ [] := by
    intro h
    simp [Tap.deref, h] at hc
  obtain ⟨a, l, hl⟩ := List.exists_cons_of_ne_nil hne
  unfold handle_map_request at h
  rw [hl] at h
  simp only at h
  rw [← hl, hc] at h
  simp only at h
  by_cases hany : st.tcp_connections.any
      (fun x => x.rpcSock == c.rpcSock && x.perceived_fd == fd) = true
  · obtain ⟨st3, hsend, htr, -⟩ := send_return_value_registered st p c 1 ERR_OK n hc
    rw [if_pos hany, hsend, Outcome.bind_ok] at h
    simp only at h
    split at h
    · simp only [Outcome.ok.injEq] at h
      subst h
      rw [htr, replies_append, replies_write_retval]
      simp [hany, ERR_OK]
    · simp at h
  · obtain ⟨st3, hsend, htr, -⟩ := send_return_value_registered st p c 0 ERR_OK n hc
    rw [if_neg hany, hsend, Outcome.bind_ok] at h
    simp only [Outcome.ok.injEq] at h
    subst h
    rw [htr, replies_append, replies_write_retval]
    simp [hany, ERR_OK]

/-! ### C7 -/

/-- C7, counterexample: when the reply cannot be written (`write` returns -1), the
MAP_REQ(99) on session 7 of `tap_one`, which is answered NOT MAPPED, closes the session's
current connection: the handler returns and the registry entry of `conn_a` is removed. -/
theorem handle_map_request_failed_write_removes_entry :
    tap_one.tcp_connections = [conn_a] ∧
    ∃ st2, handle_map_request tap_one 7 (some 100) 99 (-1) = .ok st2 ∧
      st2.tcp_connections = [] :=
  ⟨rfl, _, rfl, rfl⟩

theorem any_modify_pending (p : Nat) (q : TcpConnection → Bool) (b : Bool)
    (hq : ∀ x : TcpConnection, q { x with pending := b } = q x) (l : List TcpConnection) :
    (l.map (fun x => if x.addr == p then { x with pending := b } else x)).any q = l.any q := by
  rw [List.any_map]
  congr 1
  funext x
  by_cases h : x.addr = p
  · have hb : (x.addr == p) = true := by simpa using h
    simp only [Function.comp, hb, if_true]
    exact hq x
  · have hb : (x.addr == p) = false := by simpa using h
    simp [Function.comp, hb]

/-- C7, amended: let the session's user pointer be a registered connection `c` of session
`s`, and let the reply of the first of two consecutive MAP_REQ(fd) be written (`write` returns
a positive count, so that no connection is closed in between).  Then the first request
returns, changes no connection's (`rpcSock`, `perceived_fd`) pair and neither adds nor
removes a registry entry; the second request returns when its reply is written too, and
whenever it returns it has sent the same RETVAL record on `s` as the first. -/
theorem handle_map_request_idempotent (st : Tap) (s p : Nat) (c : TcpConnection)
    (fd n1 n2 : Int) (hc : st.deref p = some c) (hs : c.rpcSock = s) (h1 : n1 > 0) :
    ∃ st1 r, handle_map_request st s (some p) fd n1 = .ok st1 ∧
      replies st1.trace = replies st.trace ++ [(s, r, 0)] ∧
      st1.tcp_connections.map (fun x => (x.addr, x.rpcSock, x.perceived_fd))
        = st.tcp_connections.map (fun x => (x.addr, x.rpcSock, x.perceived_fd)) ∧
      (n2 > 0 → ∃ st2, handle_map_request st1 s (some p) fd n2 = .ok st2) ∧
      (∀ st2, handle_map_request st1 s (some p) fd n2 = .ok st2 →
        replies st2.trace = replies st1.trace ++ [(s, r, 0)]) := by
  obtain ⟨st1, hcall1, hrep1, hL1⟩ := handle_map_request_registered st s p c fd n1 hc h1
  have hc1 : st1.deref p = some { c with pending := false } := by
    have := deref_modify st p (fun x => { x with pending := false }) c (fun _ => rfl) hc
    unfold Tap.deref at this ⊢
    rw [hL1]
    exact this
  have hany : st1.tcp_connections.any (fun x => x.rpcSock == c.rpcSock && x.perceived_fd == fd)
      = st.tcp_connections.any (fun x => x.rpcSock == c.rpcSock && x.perceived_fd == fd) := by
    rw [hL1]
    exact any_modify_pending p (fun x => x.rpcSock == c.rpcSock && x.perceived_fd == fd) false
      (fun _ => rfl) st.tcp_connections
  rw [hs] at hrep1
  refine ⟨st1, _, hcall1, hrep1, ?_, ?_, ?_⟩
  · rw [hL1]
    simp only [Tap.modify, List.map_map]
    apply List.map_congr_left
    intro x _
    by_cases h : x.addr = p <;> simp [h]
  · intro h2
    obtain ⟨st2, hcall2, -⟩ := handle_map_request_registered st1 s p
      { c with pending := false } fd n2 hc1 h2
    exact ⟨st2, hcall2⟩
  · intro st2 hcall2
    have hrep2 := handle_map_request_reply st1 s p { c with pending := false } fd n2 hc1 st2
      hcall2
    simp only [hany] at hrep2
    rw [hs] at hrep2
    exact hrep2

/-- C7, witness: two MAP_REQ(17) on session 7 of `tap_one`, the first reply written. -/
theorem handle_map_request_idempotent_witness :
    tap_one.deref 100 = some conn_a ∧ conn_a.rpcSock = 7 ∧ (9 : Int) > 0 ∧
    ∃ st1 r, handle_map_request tap_one 7 (some 100) 17 9 = .ok st1 ∧
      replies st1.trace = replies tap_one.trace ++ [(7, r, 0)] ∧
      st1.tcp_connections.map (fun x => (x.addr, x.rpcSock, x.perceived_fd))
        = tap_one.tcp_connections.map (fun x => (x.addr, x.rpcSock, x.perceived_fd)) ∧
      ((9 : Int) > 0 → ∃ st2, handle_map_request st1 7 (some 100) 17 9 = .ok st2) ∧
      (∀ st2, handle_map_request st1 7 (some 100) 17 9 = .ok st2 →
        replies st2.trace = replies st1.trace ++ [(7, r, 0)]) :=
  ⟨by decide, by decide, by decide,
    handle_map_request_idempotent tap_one 7 100 conn_a 17 9 9 (by decide) (by decide)
      (by decide)⟩

/-! ### C8 -/

theorem getConnectionByTheirFD_some (st : Tap) (sock : Nat) (fd : Int) (c : TcpConnection)
    (h : getConnectionByTheirFD st sock fd = some c) :
    c ∈ st.tcp_connections ∧ c.perceived_fd = fd ∧ c.rpcSock = sock := by
  unfold getConnectionByTheirFD at h
  have h1 := List.mem_of_find?_eq_some h
  have h2 := List.find?_some h
  simp only [Bool.and_eq_true, beq_iff_eq] at h2
  exact ⟨h1, h2.1, h2.2⟩

/-- The reply step of the handlers: for a registered connection it returns, one record is
added to the replies and no `tcp_bind` call is made. -/
theorem send_reply_registered (st : Tap) (p : Nat) (c : TcpConnection) (r e n : Int)
    (hc : st.deref p = some c) :
    ∃ st2, (send_return_value st (some p) r e n).bind (fun x => Outcome.ok x.1) = .ok st2 ∧
      replies st2.trace = replies st.trace ++ [(c.rpcSock, r, e)] ∧
      bind_calls st2.trace = bind_calls st.trace := by
  obtain ⟨st2, hsend, htr, -⟩ := send_return_value_registered st p c r e n hc
  refine ⟨st2, by simp [hsend, Outcome.bind], ?_, ?_⟩
  · rw [htr, replies_append, replies_write_retval]
  · rw [htr, bind_calls_append, bind_calls_write_retval, List.append_nil]

/-- C8: for a BIND request whose (session, sockfd) resolves to a registered connection `c`,
`handle_bind` returns and: if the PCB is not in state CLOSED, exactly one record
RETVAL(-1, EINVAL) is sent and `tcp_bind` is not called; otherwise `tcp_bind` is called once,
on `c.pcb` with `_ips[0]` and the port, and exactly one record is sent, RETVAL(0,0) when it
returns `ERR_OK`, RETVAL(-1, EADDRINUSE) when it returns `ERR_USE`, RETVAL(-1, ENOMEM) when it
returns `ERR_MEM` or `ERR_BUF`. -/
theorem handle_bind_reply (st : Tap) (sock : Nat) (uptr : Option Nat) (sockfd : Int)
    (port : Nat) (pcb_state : tcp_state) (err n : Int) (c : TcpConnection) (ip : Nat)
    (ips : List Nat)
    (hnd : (st.tcp_connections.map (fun y => y.addr)).Nodup)
    (hips : st.ips = ip :: ips)
    (hres : getConnectionByTheirFD st sock sockfd = some c) :
    ∃ st2, handle_bind st sock uptr sockfd port pcb_state err n = .ok st2 ∧
      (pcb_state ≠ .CLOSED →
        replies st2.trace = replies st.trace ++ [(sock, -1, EINVAL)] ∧
        bind_calls st2.trace = bind_calls st.trace) ∧
      (pcb_state = .CLOSED →
        bind_calls st2.trace = bind_calls st.trace ++ [(c.pcb, ip, port)] ∧
        (err = ERR_OK → replies st2.trace = replies st.trace ++ [(sock, 0, 0)]) ∧
        (err = ERR_USE → replies st2.trace = replies st.trace ++ [(sock, -1, EADDRINUSE)]) ∧
        (err = ERR_MEM ∨ err = ERR_BUF →
          replies st2.trace = replies st.trace ++ [(sock, -1, ENOMEM)])) := by
  obtain ⟨hmem, -, hsock⟩ := getConnectionByTheirFD_some st sock sockfd c hres
  have hc : st.deref c.addr = some c := deref_of_mem st c hnd hmem
  have hc1 : (st.emit [Event.tcp_bind c.pcb ip port err]).deref c.addr = some c := hc
  have hb1 : bind_calls (st.emit [Event.tcp_bind c.pcb ip port err]).trace
      = bind_calls st.trace ++ [(c.pcb, ip, port)] := by
    simp [Tap.emit, bind_calls_append, bind_calls]
  have hr1 : replies (st.emit [Event.tcp_bind c.pcb ip port err]).trace = replies st.trace := by
    simp [Tap.emit, replies_append, replies]
  have e1 : ERR_USE ≠ ERR_OK := by decide
  have e2 : ERR_USE ≠ ERR_MEM := by decide
  have e3 : ERR_USE ≠ ERR_BUF := by decide
  have e4 : ERR_MEM ≠ ERR_OK := by decide
  have e5 : ERR_MEM ≠ ERR_BUF := by decide
  have e6 : ERR_BUF ≠ ERR_OK := by decide
  unfold handle_bind
  simp only [hips, hres]
  by_cases hst : pcb_state = .CLOSED
  · simp only [hst, if_true]
    by_cases h0 : err = ERR_OK
    · obtain ⟨st2, hsend, hrep, hbind⟩ := send_reply_registered _ c.addr c ERR_OK ERR_OK n hc1
      refine ⟨st2, by simpa [h0] using hsend, fun h => absurd rfl h, fun _ => ⟨?_, ?_, ?_, ?_⟩⟩
      · rw [hbind, hb1]
      · intro _; rw [hrep, hr1, hsock]; rfl
      · intro h; exact absurd (h0.symm.trans h).symm e1
      · rintro (h | h)
        · exact absurd (h0.symm.trans h).symm e4
        · exact absurd (h0.symm.trans h).symm e6
    · by_cases hU : err = ERR_USE
      · obtain ⟨st2, hsend, hrep, hbind⟩ :=
          send_reply_registered _ c.addr c (-1) EADDRINUSE n hc1
        subst hU
        refine ⟨st2, ?_, fun h => absurd rfl h, fun _ => ⟨?_, ?_, ?_, ?_⟩⟩
        · simp only [ne_eq, e1, not_false_eq_true, if_true, e2, e3, if_false]
          rw [hsend]
          rfl
        · rw [hbind, hb1]
        · intro h; exact absurd h e1
        · intro _; rw [hrep, hr1, hsock]
        · rintro (h | h)
          · exact absurd h e2
          · exact absurd h e3
      · by_cases hM : err = ERR_MEM
        · obtain ⟨st2, hsend, hrep, hbind⟩ :=
            send_reply_registered _ c.addr c (-1) ENOMEM n hc1
          subst hM
          refine ⟨st2, ?_, fun h => absurd rfl h, fun _ => ⟨?_, ?_, ?_, ?_⟩⟩
          · simp only [ne_eq, e4, not_false_eq_true, if_true, e2.symm, e5, if_false,
              Outcome.bind_ok]
            rw [hsend]
            rfl
          · rw [hbind, hb1]
          · intro h; exact absurd h e4
          · intro h; exact absurd h e2.symm
          · intro _; rw [hrep, hr1, hsock]
        · by_cases hB : err = ERR_BUF
          · obtain ⟨st2, hsend, hrep, hbind⟩ :=
              send_reply_registered _ c.addr c (-1) ENOMEM n hc1
            subst hB
            refine ⟨st2, ?_, fun h => absurd rfl h, fun _ => ⟨?_, ?_, ?_, ?_⟩⟩
            · simp only [ne_eq, e6, not_false_eq_true, if_true, e3.symm, e5.symm, if_false,
                Outcome.bind_ok]
              exact hsend
            · rw [hbind, hb1]
            · intro h; exact absurd h e6
            · intro h; exact absurd h e3.symm
            · intro _; rw [hrep, hr1, hsock]
          · refine ⟨st.emit [Event.tcp_bind c.pcb ip port err], ?_, fun h => absurd rfl h,
              fun _ => ⟨hb1, fun h => absurd h h0, fun h => absurd h hU, ?_⟩⟩
            · simp only [ne_eq, h0, not_false_eq_true, if_true, hU, hM, hB, if_false,
                Outcome.bind]
            · rintro (h | h)
              · exact absurd h hM
              · exact absurd h hB
  · obtain ⟨st2, hsend, hrep, hbind⟩ := send_reply_registered st c.addr c (-1) EINVAL n hc
    refine ⟨st2, by simpa [hst] using hsend, fun _ => ⟨?_, hbind⟩, fun h => absurd h hst⟩
    rw [hrep, hsock]

/-- C8, witness: BIND(17) on session 7 of `tap_one` with the port in use. -/
theorem handle_bind_reply_witness :
    ∃ st2, handle_bind tap_one 7 (some 100) 17 7777 .CLOSED ERR_USE 9 = .ok st2 ∧
      (tcp_state.CLOSED ≠ .CLOSED →
        replies st2.trace = replies tap_one.trace ++ [(7, -1, EINVAL)] ∧
        bind_calls st2.trace = bind_calls tap_one.trace) ∧
      (tcp_state.CLOSED = .CLOSED →
        bind_calls st2.trace = bind_calls tap_one.trace ++ [(conn_a.pcb, 1, 7777)] ∧
        (ERR_USE = ERR_OK → replies st2.trace = replies tap_one.trace ++ [(7, 0, 0)]) ∧
        (ERR_USE = ERR_USE →
          replies st2.trace = replies tap_one.trace ++ [(7, -1, EADDRINUSE)]) ∧
        (ERR_USE = ERR_MEM ∨ ERR_USE = ERR_BUF →
          replies st2.trace = replies tap_one.trace ++ [(7, -1, ENOMEM)])) :=
  handle_bind_reply tap_one 7 (some 100) 17 7777 .CLOSED ERR_USE 9 conn_a 1 []
    (by decide) (by decide) (by decide)

/-- When `tcp_bind` returns an error other than `ERR_USE`, `ERR_MEM` and `ERR_BUF` (lwIP
returns `ERR_VAL` only for a PCB that is not CLOSED), none of the three tests fires and no
record is written. -/
theorem handle_bind_other_error_sends_nothing :
    ∃ st2, handle_bind tap_one 7 (some 100) 17 7777 .CLOSED ERR_VAL 9 = .ok st2 ∧
      replies st2.trace = replies tap_one.trace :=
  ⟨_, rfl, rfl⟩

/-! ### C9 -/

/-- C9, the code at the failing input: BIND(5) on session 7 of `tap_one`, where descriptor 5
is not mapped.  `send_return_value` is called with the `NULL` connection, so it returns -1
without writing: the tap, its trace included, is as before. -/
theorem handle_bind_unresolved_sends_nothing :
    getConnectionByTheirFD tap_one 7 5 = none ∧
    handle_bind tap_one 7 (some 100) 5 7777 .CLOSED ERR_OK 9 = .ok tap_one :=
  ⟨rfl, rfl⟩

/-- For every BIND request that resolves to no registered connection, nothing is written. -/
theorem unresolved_bind_writes_nothing (st : Tap) (sock : Nat) (uptr : Option Nat) (sockfd : Int)
    (port : Nat) (pcb_state : tcp_state) (err n : Int) (ip : Nat) (ips : List Nat)
    (hips : st.ips = ip :: ips) (hres : getConnectionByTheirFD st sock sockfd = none) :
    handle_bind st sock uptr sockfd port pcb_state err n = .ok st := by
  unfold handle_bind
  simp [hips, hres, send_return_value, Outcome.bind]

/-! ### C10 -/

/-- C10: for the connection `c` the request is handled on (`*uptr`), `handle_connect` sends a
reply exactly when `tcp_connect` returns a negative value: then exactly one record
RETVAL(-1, e) is written on the session of `c`, with `e = EISCONN` for `ERR_ISCONN`,
`EADDRINUSE` for `ERR_USE`, `EINVAL` for `ERR_VAL`, `ENETUNREACH` for `ERR_RTE` and `EAGAIN`
for `ERR_BUF` and `ERR_MEM`; otherwise nothing is written and `c.pending` is left `true`.
(For an error outside the list the statement is for a reply `write` that succeeds.) -/
theorem handle_connect_reply (st : Tap) (s p : Nat) (c : TcpConnection) (sockfd : Int)
    (addr port : Nat) (err n : Int) (hc : st.deref p = some c)
    (hcase : 0 ≤ err ∨ 0 < n ∨ err = ERR_ISCONN ∨ err = ERR_USE ∨ err = ERR_VAL ∨
      err = ERR_RTE ∨ err = ERR_BUF ∨ err = ERR_MEM) :
    ∃ st2, handle_connect st s (some p) sockfd addr port err n = .ok st2 ∧
      (err < 0 → ∃ e, replies st2.trace = replies st.trace ++ [(c.rpcSock, -1, e)] ∧
        (err = ERR_ISCONN → e = EISCONN) ∧ (err = ERR_USE → e = EADDRINUSE) ∧
        (err = ERR_VAL → e = EINVAL) ∧ (err = ERR_RTE → e = ENETUNREACH) ∧
        (err = ERR_BUF ∨ err = ERR_MEM → e = EAGAIN)) ∧
      (0 ≤ err → replies st2.trace = replies st.trace ∧
        st2.deref p = some { c with pending := true }) := by
  have hr1 : ∀ evs : List Event, replies evs = [] → replies (st.emit evs).trace
      = replies st.trace := by
    intro evs h
    simp [Tap.emit, replies_append, h]
  have key : ∀ (st1 : Tap) (E : Int), st1.deref p = some c →
      replies st1.trace = replies st.trace →
      ∃ st2, (send_return_value st1 (some p) (-1) E n).bind (fun r => Outcome.ok r.1) = .ok st2 ∧
        replies st2.trace = replies st.trace ++ [(c.rpcSock, -1, E)] := by
    intro st1 E h1 h2
    obtain ⟨st2, hsend, hrep, -⟩ := send_reply_registered st1 p c (-1) E n h1
    exact ⟨st2, hsend, by rw [hrep, h2]⟩
  unfold handle_connect
  simp only [hc]
  generalize hst1 : st.emit [Event.tcp_sent c.pcb (some Callback.nc_sent),
    Event.tcp_recv c.pcb (some Callback.nc_recved), Event.tcp_err c.pcb (some Callback.nc_err),
    Event.tcp_poll c.pcb (some Callback.nc_poll) APPLICATION_POLL_FREQ,
    Event.tcp_arg c.pcb (some p),
    Event.tcp_connect c.pcb addr port Callback.nc_connected err] = st1
  have hc1 : st1.deref p = some c := by rw [← hst1]; exact hc
  have hrep1 : replies st1.trace = replies st.trace := by
    rw [← hst1]
    exact hr1 _ (by simp [replies])
  by_cases hneg : err < 0
  · simp only [hneg, if_true]
    have hnn : ¬ 0 ≤ err := by omega
    by_cases h1 : err = ERR_ISCONN
    · obtain ⟨st2, hsend, hrep⟩ := key st1 EISCONN hc1 hrep1
      refine ⟨st2, by simpa [h1] using hsend, fun _ => ⟨EISCONN, hrep, ?_⟩, fun h => absurd h hnn⟩
      subst h1
      decide
    · by_cases h2 : err = ERR_USE
      · obtain ⟨st2, hsend, hrep⟩ := key st1 EADDRINUSE hc1 hrep1
        refine ⟨st2, by simpa [h1, h2] using hsend, fun _ => ⟨EADDRINUSE, hrep, ?_⟩,
          fun h => absurd h hnn⟩
        subst h2
        decide
      · by_cases h3 : err = ERR_VAL
        · obtain ⟨st2, hsend, hrep⟩ := key st1 EINVAL hc1 hrep1
          refine ⟨st2, by simpa [h1, h2, h3] using hsend, fun _ => ⟨EINVAL, hrep, ?_⟩,
            fun h => absurd h hnn⟩
          subst h3
          decide
        · by_cases h4 : err = ERR_RTE
          · obtain ⟨st2, hsend, hrep⟩ := key st1 ENETUNREACH hc1 hrep1
            refine ⟨st2, by simpa [h1, h2, h3, h4] using hsend,
              fun _ => ⟨ENETUNREACH, hrep, ?_⟩, fun h => absurd h hnn⟩
            subst h4
            decide
          · by_cases h5 : err = ERR_BUF
            · obtain ⟨st2, hsend, hrep⟩ := key st1 EAGAIN hc1 hrep1
              refine ⟨st2, by simpa [h1, h2, h3, h4, h5] using hsend,
                fun _ => ⟨EAGAIN, hrep, ?_⟩, fun h => absurd h hnn⟩
              subst h5
              decide
            · by_cases h6 : err = ERR_MEM
              · obtain ⟨st2, hsend, hrep⟩ := key st1 EAGAIN hc1 hrep1
                refine ⟨st2, by simpa [h1, h2, h3, h4, h5, h6] using hsend,
                  fun _ => ⟨EAGAIN, hrep, ?_⟩, fun h => absurd h hnn⟩
                subst h6
                decide
              · have hn : 0 < n := by
                  rcases hcase with h | h | h | h | h | h | h | h
                  · exact absurd h hnn
                  · exact h
                  · exact absurd h h1
                  · exact absurd h h2
                  · exact absurd h h3
                  · exact absurd h h4
                  · exact absurd h h5
                  · exact absurd h h6
                obtain ⟨st2, hsend, htr, -, -, hpos, -⟩ :=
                  send_return_value_registered st1 p c (-1) EAGAIN n hc1
                have hL2 := hpos hn
                have hc2 : st2.deref p = some { c with pending := false } := by
                  have := deref_modify st1 p (fun x => { x with pending := false }) c
                    (fun _ => rfl) hc1
                  unfold Tap.deref at this ⊢
                  rw [hL2]
                  exact this
                refine ⟨st2.modify p (fun x => { x with pending := true }), ?_,
                  fun _ => ⟨EAGAIN, ?_, fun h => absurd h h1, fun h => absurd h h2,
                    fun h => absurd h h3, fun h => absurd h h4, fun _ => rfl⟩,
                  fun h => absurd h hnn⟩
                · simp only [h1, h2, h3, h4, h5, h6, if_false, hsend, Outcome.bind_ok,
                    set_pending, hc2]
                · show replies st2.trace = _
                  rw [htr, replies_append, replies_write_retval, hrep1]
  · have hge : 0 ≤ err := by omega
    have hc2 := deref_modify st1 p (fun x => { x with pending := true }) c (fun _ => rfl) hc1
    refine ⟨st1.modify p (fun x => { x with pending := true }), ?_, fun h => absurd h hneg,
      fun _ => ⟨hrep1, hc2⟩⟩
    simp only [hneg, if_false, set_pending, hc1]

/-- C10, witness: CONNECT on session 7 of `tap_one` with no route to the host. -/
theorem handle_connect_reply_witness :
    ∃ st2, handle_connect tap_one 7 (some 100) 17 1 80 ERR_RTE 9 = .ok st2 ∧
      (ERR_RTE < 0 → ∃ e, replies st2.trace = replies tap_one.trace ++ [(conn_a.rpcSock, -1, e)] ∧
        (ERR_RTE = ERR_ISCONN → e = EISCONN) ∧ (ERR_RTE = ERR_USE → e = EADDRINUSE) ∧
        (ERR_RTE = ERR_VAL → e = EINVAL) ∧ (ERR_RTE = ERR_RTE → e = ENETUNREACH) ∧
        (ERR_RTE = ERR_BUF ∨ ERR_RTE = ERR_MEM → e = EAGAIN)) ∧
      (0 ≤ ERR_RTE → replies st2.trace = replies tap_one.trace ∧
        st2.deref 100 = some { conn_a with pending := true }) :=
  handle_connect_reply tap_one 7 100 conn_a 17 1 80 ERR_RTE 9 (by decide) (by decide)

/-- For a `tcp_connect` error that is not in the list the code does not return after the
reply, so when the reply `write` fails the connection is closed and deleted and
`conn->pending = true` then writes to the deleted object. -/
theorem handle_connect_unlisted_error_failed_write :
    handle_connect tap_one 7 (some 100) 17 1 80 ERR_ABRT (-1) = .undefined :=
  rfl

/-! ### C11 -/

/-- C11, the code at the failing input: session 7 has `conn_a` mapped to 17 (PCB 9) and
`conn_d` mapped to 18 (PCB 12), and the user pointer of the session is `conn_d`, the socket
created last.  RPC_CONNECT with `sockfd = 17` names `conn_a`, but the callbacks are installed
and `tcp_connect` is called on PCB 12 of `conn_d`, and `conn_d` is marked pending; no call is
made on PCB 9. -/
theorem handle_connect_acts_on_user_pointer :
    getConnectionByTheirFD tap_two_mapped 7 17 = some conn_a ∧
    ∃ st2, handle_connect tap_two_mapped 7 (some 200) 17 1 80 ERR_OK 9 = .ok st2 ∧
      st2.trace = [.tcp_sent 12 (some .nc_sent), .tcp_recv 12 (some .nc_recved),
        .tcp_err 12 (some .nc_err), .tcp_poll 12 (some .nc_poll) 20, .tcp_arg 12 (some 200),
        .tcp_connect 12 1 80 .nc_connected 0] ∧
      st2.tcp_connections = [conn_a, { conn_d with pending := true }] :=
  ⟨rfl, _, rfl, rfl, rfl⟩

/-- The `sockfd` of the request has no influence on what `handle_connect` does. -/
theorem handle_connect_sockfd_unused (st : Tap) (s : Nat) (uptr : Option Nat)
    (fd1 fd2 : Int) (addr port : Nat) (err n : Int) :
    handle_connect st s uptr fd1 addr port err n = handle_connect st s uptr fd2 addr port err n :=
  rfl

/-! ### C12 -/

/-- When the `switch` of `nc_err` sends the errno `e` for `err`: the record goes out once on
the session of the connection; after it `nc_err` closes the connection, and it returns when
the record was written. -/
theorem nc_err_of_switch (st : Tap) (p : Nat) (c : TcpConnection) (err e n : Int)
    (hc : st.deref p = some c)
    (hsw : nc_err_switch st p err n
      = (send_return_value st (some p) (-1) e n).bind (fun r => Outcome.ok r.1)) :
    ∃ st1, nc_err_switch st p err n = .ok st1 ∧
      replies st1.trace = replies st.trace ++ [(c.rpcSock, -1, e)] ∧
      nc_err st (some p) err n = closeConnection st1 p ∧
      (0 < n → ∃ st2, nc_err st (some p) err n = .ok st2 ∧
        replies st2.trace = replies st.trace ++ [(c.rpcSock, -1, e)]) := by
  obtain ⟨st1, hsend, htr, -, -, hpos, -⟩ := send_return_value_registered st p c (-1) e n hc
  have hsw1 : nc_err_switch st p err n = .ok st1 := by
    rw [hsw, hsend]; rfl
  have hrep : replies st1.trace = replies st.trace ++ [(c.rpcSock, -1, e)] := by
    rw [htr, replies_append, replies_write_retval]
  have hnc : nc_err st (some p) err n = closeConnection st1 p := by
    simp only [nc_err, hsw1, Outcome.bind_ok]
  refine ⟨st1, hsw1, hrep, hnc, fun hn => ?_⟩
  have hc1 : st1.deref p = some { c with pending := false } := by
    have := deref_modify st p (fun x => { x with pending := false }) c (fun _ => rfl) hc
    unfold Tap.deref at this ⊢
    rw [hpos hn]
    exact this
  have hcl : closeConnection st1 p = .ok
      { st1.emit (close_events { c with pending := false }) with
        tcp_connections := (st1.emit (close_events { c with pending := false })
          ).tcp_connections.eraseP (fun x => x.addr == p) } := by
    simp only [closeConnection, hc1]
  refine ⟨_, hnc.trans hcl, ?_⟩
  simp only [Tap.emit, replies_append, replies_close_events, List.append_nil]
  exact hrep

/-- C12: for every registered connection `c` and every row (stack error, errno) of the
error table of the specification, `nc_err` writes the record RETVAL(-1, errno) once on the
session of `c` (`-1` as errno for RST, CLSD, CONN, ARG and IF), then closes the connection;
when the record was written (`write` returned a positive count) `nc_err` returns with exactly
that record added. -/
theorem nc_err_reports_table (st : Tap) (p : Nat) (c : TcpConnection) (n : Int)
    (hc : st.deref p = some c) :
    ∀ row ∈ spec_nc_err_table,
      ∃ st1, nc_err_switch st p row.1 n = .ok st1 ∧
        replies st1.trace = replies st.trace ++ [(c.rpcSock, -1, row.2)] ∧
        nc_err st (some p) row.1 n = closeConnection st1 p ∧
        (0 < n → ∃ st2, nc_err st (some p) row.1 n = .ok st2 ∧
          replies st2.trace = replies st.trace ++ [(c.rpcSock, -1, row.2)]) := by
  intro row hrow
  simp only [spec_nc_err_table, List.mem_cons, List.mem_singleton, List.not_mem_nil,
    or_false] at hrow
  rcases hrow with h | h | h | h | h | h | h | h | h | h | h | h | h | h | h <;>
    subst h <;> exact nc_err_of_switch st p c _ _ n hc rfl

/-- C12, witness: the row (ABRT, ECONNREFUSED) on `conn_a` of `tap_one`, the record
written. -/
theorem nc_err_reports_table_witness :
    (ERR_ABRT, ECONNREFUSED) ∈ spec_nc_err_table ∧
    ∃ st1, nc_err_switch tap_one 100 ERR_ABRT 9 = .ok st1 ∧
      replies st1.trace = replies tap_one.trace ++ [(conn_a.rpcSock, -1, ECONNREFUSED)] ∧
      nc_err tap_one (some 100) ERR_ABRT 9 = closeConnection st1 100 ∧
      (0 < (9 : Int) → ∃ st2, nc_err tap_one (some 100) ERR_ABRT 9 = .ok st2 ∧
        replies st2.trace = replies tap_one.trace ++ [(conn_a.rpcSock, -1, ECONNREFUSED)]) :=
  ⟨by decide, nc_err_reports_table tap_one 100 conn_a 9 (by decide)
    (ERR_ABRT, ECONNREFUSED) (by decide)⟩

/-! ### C13 -/

/-- C13, the code at the failing input: `nc_err` with `ERR_ABRT` for `conn_a` while the reply
`write` returns -1.  `send_return_value` has closed and deleted the connection when the
`switch` is left (the registry is empty and `tcp_close` was called on PCB 9), and `nc_err`
then calls `closeConnection` on the deleted object. -/
theorem nc_err_failed_reply_closes_twice :
    (∃ st1, nc_err_switch tap_one 100 ERR_ABRT (-1) = .ok st1 ∧ st1.tcp_connections = [] ∧
      close_calls st1.trace = [9]) ∧
    nc_err tap_one (some 100) ERR_ABRT (-1) = .undefined :=
  ⟨⟨_, rfl, rfl, rfl⟩, rfl⟩

theorem close_calls_append (a b : List Event) :
    close_calls (a ++ b) = close_calls a ++ close_calls b := by
  simp [close_calls, List.filterMap_append]

theorem close_calls_close_events (c : TcpConnection) : close_calls (close_events c) = [c.pcb] := by
  by_cases h0 : c.dataSock = 0 <;> simp [close_events, close_calls, h0]

theorem map_update_split (p : Nat) (f : TcpConnection → TcpConnection)
    (pre post : List TcpConnection) (c : TcpConnection) (hcp : c.addr = p)
    (hpre : ∀ y ∈ pre, y.addr ≠ p) (hpost : ∀ y ∈ post, y.addr ≠ p) :
    (pre ++ c :: post).map (fun x => if x.addr == p then f x else x) = pre ++ f c :: post := by
  have h1 : ∀ l : List TcpConnection, (∀ y ∈ l, y.addr ≠ p) →
      l.map (fun x => if x.addr == p then f x else x) = l := by
    intro l hl
    induction l with
    | nil => rfl
    | cons a l ih =>
      have ha : (a.addr == p) = false := by simpa using hl a (by simp)
      simp only [List.map_cons, ha, Bool.false_eq_true, if_false]
      rw [ih (fun y hy => hl y (by simp [hy]))]
  have hb : (c.addr == p) = true := by simpa using hcp
  simp only [List.map_append, List.map_cons, hb, if_true, h1 pre hpre, h1 post hpost]

/-- Erasing the entry at `p` after an update of the object at `p` leaves what erasing it
before the update leaves, and no entry at `p` remains. -/
theorem eraseP_modify (st : Tap) (p : Nat) (f : TcpConnection → TcpConnection)
    (c : TcpConnection) (hf : ∀ x, (f x).addr = x.addr)
    (hnd : (st.tcp_connections.map (fun y => y.addr)).Nodup) (hc : st.deref p = some c) :
    (st.modify p f).tcp_connections.eraseP (fun x => x.addr == p)
        = st.tcp_connections.eraseP (fun x => x.addr == p) ∧
      (∀ y ∈ st.tcp_connections.eraseP (fun x => x.addr == p), y.addr ≠ p) ∧
      (∀ y ∈ st.tcp_connections, y.addr ≠ p →
        y ∈ st.tcp_connections.eraseP (fun x => x.addr == p)) := by
  obtain ⟨hmem, hcp⟩ := deref_mem st p c hc
  obtain ⟨pre, post, hL⟩ := List.append_of_mem hmem
  rw [hL] at hnd
  obtain ⟨hpre, hpost, -⟩ := nodup_addr_split pre post c hnd
  subst hcp
  have e1 := eraseP_addr_append_cons pre post c hpre
  have e2 : (pre ++ f c :: post).eraseP (fun y => y.addr == c.addr) = pre ++ post := by
    have := eraseP_addr_append_cons pre post (f c) (by
      intro y hy; rw [hf]; exact hpre y hy)
    rw [hf] at this
    exact this
  simp only [Tap.modify, hL]
  rw [map_update_split c.addr f pre post c rfl hpre hpost, e1, e2]
  refine ⟨rfl, ?_, ?_⟩
  · intro y hy
    rcases List.mem_append.mp hy with h | h
    · exact hpre y h
    · exact hpost y h
  · intro y hy hyp
    rcases List.mem_append.mp hy with h | h
    · exact List.mem_append.mpr (Or.inl h)
    · rcases List.mem_cons.mp h with h2 | h2
      · exact absurd (by rw [h2]) hyp
      · exact List.mem_append.mpr (Or.inr h2)

/-- The `switch` of `nc_err` when the reply, if there is one, is written: it returns, at most
the `pending` flag of the object at `p` has changed, and `tcp_close` was not called. -/
theorem nc_err_switch_written (st : Tap) (p : Nat) (c : TcpConnection) (err n : Int)
    (hc : st.deref p = some c) (hn : 0 < n) :
    ∃ st1 b, nc_err_switch st p err n = .ok st1 ∧
      st1.tcp_connections = (st.modify p (fun x => { x with pending := b && x.pending })
        ).tcp_connections ∧
      close_calls st1.trace = close_calls st.trace := by
  have key : ∀ e : Int, ∃ st1 b,
      (send_return_value st (some p) (-1) e n).bind (fun r => Outcome.ok r.1) = .ok st1 ∧
      st1.tcp_connections = (st.modify p (fun x => { x with pending := b && x.pending })
        ).tcp_connections ∧
      close_calls st1.trace = close_calls st.trace := by
    intro e
    obtain ⟨st1, hsend, htr, -, -, hpos, -⟩ := send_return_value_registered st p c (-1) e n hc
    refine ⟨st1, false, by rw [hsend]; rfl, by simpa using hpos hn, ?_⟩
    rw [htr, close_calls_append]
    simp [close_calls, hn]
  unfold nc_err_switch
  by_cases h0 : err = ERR_MEM
  · rw [if_pos h0]; exact key _
  rw [if_neg h0]
  by_cases h1 : err = ERR_BUF
  · rw [if_pos h1]; exact key _
  rw [if_neg h1]
  by_cases h2 : err = ERR_TIMEOUT
  · rw [if_pos h2]; exact key _
  rw [if_neg h2]
  by_cases h3 : err = ERR_RTE
  · rw [if_pos h3]; exact key _
  rw [if_neg h3]
  by_cases h4 : err = ERR_INPROGRESS
  · rw [if_pos h4]; exact key _
  rw [if_neg h4]
  by_cases h5 : err = ERR_VAL
  · rw [if_pos h5]; exact key _
  rw [if_neg h5]
  by_cases h6 : err = ERR_WOULDBLOCK
  · rw [if_pos h6]; exact key _
  rw [if_neg h6]
  by_cases h7 : err = ERR_USE
  · rw [if_pos h7]; exact key _
  rw [if_neg h7]
  by_cases h8 : err = ERR_ISCONN
  · rw [if_pos h8]; exact key _
  rw [if_neg h8]
  by_cases h9 : err = ERR_ABRT
  · rw [if_pos h9]; exact key _
  rw [if_neg h9]
  by_cases h10 : err = ERR_RST
  · rw [if_pos h10]; exact key _
  rw [if_neg h10]
  by_cases h11 : err = ERR_CLSD
  · rw [if_pos h11]; exact key _
  rw [if_neg h11]
  by_cases h12 : err = ERR_CONN
  · rw [if_pos h12]; exact key _
  rw [if_neg h12]
  by_cases h13 : err = ERR_ARG
  · rw [if_pos h13]; exact key _
  rw [if_neg h13]
  by_cases h14 : err = ERR_IF
  · rw [if_pos h14]; exact key _
  rw [if_neg h14]
  exact ⟨st, true, rfl, by simp [Tap.modify], rfl⟩

/-- When the reply of `nc_err` is written, for every error value: `nc_err` returns, the
connection is no longer registered, every other connection is registered as before, and
`tcp_close` was called once, on the PCB of the connection. -/
theorem nc_err_closes_once (st : Tap) (p : Nat) (c : TcpConnection) (err n : Int)
    (hnd : (st.tcp_connections.map (fun y => y.addr)).Nodup)
    (hc : st.deref p = some c) (hn : 0 < n) :
    ∃ st2, nc_err st (some p) err n = .ok st2 ∧ st2.deref p = none ∧
      (∀ y ∈ st.tcp_connections, y.addr ≠ p → y ∈ st2.tcp_connections) ∧
      st2.tcp_connections = st.tcp_connections.eraseP (fun x => x.addr == p) ∧
      close_calls st2.trace = close_calls st.trace ++ [c.pcb] := by
  obtain ⟨st1, b, hsw, hL1, hcl1⟩ := nc_err_switch_written st p c err n hc hn
  have hc1 : st1.deref p = some { c with pending := b && c.pending } := by
    have := deref_modify st p (fun x => { x with pending := b && x.pending }) c
      (fun _ => rfl) hc
    unfold Tap.deref at this ⊢
    rw [hL1]
    exact this
  obtain ⟨he1, he2, he3⟩ := eraseP_modify st p (fun x => { x with pending := b && x.pending }) c
    (fun _ => rfl) hnd hc
  refine ⟨{ st1.emit (close_events { c with pending := b && c.pending }) with
      tcp_connections := (st1.emit (close_events { c with pending := b && c.pending })
        ).tcp_connections.eraseP (fun x => x.addr == p) }, ?_, ?_, ?_, ?_, ?_⟩
  · simp only [nc_err, hsw, Outcome.bind_ok, closeConnection, hc1]
  · simp only [Tap.deref, Tap.emit, hL1, he1]
    rw [List.find?_eq_none]
    intro y hy
    simpa using he2 y hy
  · intro y hy hyp
    simp only [Tap.emit, hL1, he1]
    exact he3 y hy hyp
  · simp only [Tap.emit, hL1, he1]
  · simp only [Tap.emit, close_calls_append, close_calls_close_events, hcl1]

/-! ### C14 -/

/-- C14: when `tcp_new` returns a PCB and `socketpair` succeeds, `handle_socket` on session
`s` appends exactly one connection to `tcp_connections`, with the new PCB, `rpcSock = s` and
`pending = true`; it becomes the user pointer of the session; the client end `fds[1]` is sent
over `s`; the connections registered before are unchanged; no RETVAL record is written. -/
theorem handle_socket_registers (st : Tap) (s : Nat) (uptr : Option Nat) (newpcb : Nat)
    (sp errno : Int) (fresh : TcpConnection) (dataSock : Nat) (fd1 nfd n : Int)
    (hpcb : newpcb ≠ 0) (hsp : 0 ≤ sp) :
    ∃ nconn, (handle_socket st s uptr newpcb sp errno fresh dataSock fd1 nfd n).1.tcp_connections
        = st.tcp_connections ++ [nconn] ∧
      nconn.addr = fresh.addr ∧ nconn.pcb = newpcb ∧ nconn.rpcSock = s ∧
      nconn.pending = true ∧ nconn.dataSock = dataSock ∧
      (handle_socket st s uptr newpcb sp errno fresh dataSock fd1 nfd n).2 = some nconn.addr ∧
      (handle_socket st s uptr newpcb sp errno fresh dataSock fd1 nfd n).1.trace
        = st.trace ++ [.tcp_new newpcb, .sock_fd_write s fd1 nfd, .close_their_fd fd1] ∧
      replies (handle_socket st s uptr newpcb sp errno fresh dataSock fd1 nfd n).1.trace
        = replies st.trace ∧
      (handle_socket st s uptr newpcb sp errno fresh dataSock fd1 nfd n).1.rpc_sockets
        = st.rpc_sockets := by
  have hnsp : ¬ (sp < 0 ∧ errno < 0) := fun h => absurd h.1 (by omega)
  refine ⟨{ fresh with
      dataSock := dataSock, rpcSock := s, pcb := newpcb, their_fd := fd1, pending := true },
    ?_, rfl, rfl, rfl, rfl, rfl, ?_, ?_, ?_, ?_⟩
  all_goals simp [handle_socket, hpcb, hnsp, Tap.emit, replies]

/-- C14, witness: RPC_SOCKET on session 7 of the empty tap. -/
theorem handle_socket_registers_witness :
    ∃ nconn, (handle_socket tap_empty 7 none 9 0 0 (fresh_at 100) 8 5 1 9).1.tcp_connections
        = tap_empty.tcp_connections ++ [nconn] ∧
      nconn.addr = (fresh_at 100).addr ∧ nconn.pcb = 9 ∧ nconn.rpcSock = 7 ∧
      nconn.pending = true ∧ nconn.dataSock = 8 ∧
      (handle_socket tap_empty 7 none 9 0 0 (fresh_at 100) 8 5 1 9).2 = some nconn.addr ∧
      (handle_socket tap_empty 7 none 9 0 0 (fresh_at 100) 8 5 1 9).1.trace
        = tap_empty.trace ++ [.tcp_new 9, .sock_fd_write 7 5 1, .close_their_fd 5] ∧
      replies (handle_socket tap_empty 7 none 9 0 0 (fresh_at 100) 8 5 1 9).1.trace
        = replies tap_empty.trace ∧
      (handle_socket tap_empty 7 none 9 0 0 (fresh_at 100) 8 5 1 9).1.rpc_sockets
        = tap_empty.rpc_sockets :=
  handle_socket_registers tap_empty 7 none 9 0 0 (fresh_at 100) 8 5 1 9 (by decide) (by decide)

/-! ### C15 -/

/-- C15, counterexample: LISTEN(17) on session 7 of `tap_one`, the stack returning the
listening PCB 10, while the reply `write` returns -1: `send_return_value` closes the
connection, and afterwards `getConnectionByPCB(10)` finds nothing. -/
theorem handle_listen_failed_reply_closes :
    ¬ (∀ st2, handle_listen tap_one 7 (some 100) 17 5 .CLOSED 10 (-1) = .ok st2 →
        (getConnectionByPCB st2 10).map (fun c => c.addr) = some 100) := by
  intro h
  have h2 := h _ rfl
  revert h2
  decide

theorem modify_conns (st : Tap) (p : Nat) (f : TcpConnection → TcpConnection) :
    (st.modify p f).tcp_connections
      = st.tcp_connections.map (fun x => if x.addr == p then f x else x) :=
  rfl

theorem find_append_cons_of_false (q : TcpConnection → Bool) (pre post : List TcpConnection)
    (x : TcpConnection) (hpre : ∀ y ∈ pre, q y = false) (hx : q x = true) :
    (pre ++ x :: post).find? q = some x := by
  induction pre with
  | nil => simp [hx]
  | cons a pre ih =>
    simp only [List.cons_append, List.find?_cons, hpre a (by simp)]
    exact ih (fun y hy => hpre y (by simp [hy]))

/-- C15, amended: for a LISTEN request resolving to connection `c`: if the PCB is already in
state LISTEN, the request is rejected, nothing is sent and the tap is unchanged; otherwise,
when the stack returns the replacement PCB `L` (held by no other registered connection) and
the reply is written (`write` returns a positive count), afterwards `c.pcb = L`,
`getConnectionByPCB(L)` is `c`, `c.listening = true`, `nc_accept` is installed as the accept
callback of `L`, and exactly one RETVAL(0,0) was sent. -/
theorem handle_listen_installs (st : Tap) (sock : Nat) (uptr : Option Nat) (sockfd : Int)
    (backlog : Int) (pcb_state : tcp_state) (L : Nat) (n : Int) (c : TcpConnection)
    (hnd : (st.tcp_connections.map (fun y => y.addr)).Nodup)
    (hres : getConnectionByTheirFD st sock sockfd = some c) :
    (pcb_state = .LISTEN →
      handle_listen st sock uptr sockfd backlog pcb_state L n = .ok st) ∧
    (pcb_state ≠ .LISTEN → L ≠ 0 → 0 < n →
      (∀ x ∈ st.tcp_connections, x.addr ≠ c.addr → x.pcb ≠ L) →
      ∃ st2, handle_listen st sock uptr sockfd backlog pcb_state L n = .ok st2 ∧
        st2.deref c.addr = some { c with pcb := L, listening := true, pending := false } ∧
        getConnectionByPCB st2 L
          = some { c with pcb := L, listening := true, pending := false } ∧
        st2.trace = st.trace ++ [.tcp_listen c.pcb backlog L,
          .tcp_accept L (some .nc_accept), .tcp_arg L (some c.addr),
          .set_nonblocking c.dataSock, .write_retval sock 0 0 n] ∧
        replies st2.trace = replies st.trace ++ [(sock, 0, 0)] ∧
        st2.tcp_connections.map (fun y => y.addr)
          = st.tcp_connections.map (fun y => y.addr)) := by
  obtain ⟨hmem, -, hsock⟩ := getConnectionByTheirFD_some st sock sockfd c hres
  constructor
  · intro hl
    simp [handle_listen, hres, hl]
  · intro hl hL hn hfresh
    obtain ⟨pre, post, hsplit⟩ := List.append_of_mem hmem
    have hnd2 := hnd
    rw [hsplit] at hnd2
    obtain ⟨hpre, hpost, -⟩ := nodup_addr_split pre post c hnd2
    -- the state the reply is sent from
    have hL3 : ((((st.emit [.tcp_listen c.pcb backlog L]).modify c.addr
        (fun x => { x with pcb := L })).emit [.tcp_accept L (some .nc_accept),
          .tcp_arg L (some c.addr), .set_nonblocking c.dataSock]).modify c.addr
        (fun x => { x with listening := true, pending := true })).tcp_connections
        = pre ++ { c with pcb := L, listening := true, pending := true } :: post := by
      simp only [Tap.modify, Tap.emit, hsplit]
      rw [map_update_split c.addr (fun x => { x with pcb := L }) pre post c rfl hpre hpost]
      exact map_update_split c.addr (fun x => { x with listening := true, pending := true })
        pre post { c with pcb := L } rfl hpre hpost
    have hc3 : ((((st.emit [.tcp_listen c.pcb backlog L]).modify c.addr
        (fun x => { x with pcb := L })).emit [.tcp_accept L (some .nc_accept),
          .tcp_arg L (some c.addr), .set_nonblocking c.dataSock]).modify c.addr
        (fun x => { x with listening := true, pending := true })).deref c.addr
        = some { c with pcb := L, listening := true, pending := true } := by
      unfold Tap.deref
      rw [hL3]
      exact find_addr_append_cons pre post
        { c with pcb := L, listening := true, pending := true } hpre
    obtain ⟨st2, hsend, htr, -, -, hpos, -⟩ := send_return_value_registered _ c.addr _
      ERR_OK ERR_OK n hc3
    have hL4 : st2.tcp_connections
        = pre ++ { c with pcb := L, listening := true, pending := false } :: post := by
      rw [hpos hn, modify_conns, hL3]
      exact map_update_split c.addr (fun x => { x with pending := false }) pre post
        { c with pcb := L, listening := true, pending := true } rfl hpre hpost
    refine ⟨st2, ?_, ?_, ?_, ?_, ?_, ?_⟩
    · simp only [handle_listen, hres, hl, if_false, ne_eq, hL, not_false_eq_true, if_true,
        hsend, Outcome.bind_ok]
    · unfold Tap.deref
      rw [hL4]
      exact find_addr_append_cons pre post
        { c with pcb := L, listening := true, pending := false } hpre
    · unfold getConnectionByPCB
      rw [hL4]
      apply find_append_cons_of_false
      · intro y hy
        have := hfresh y (by rw [hsplit]; simp [hy]) (hpre y hy)
        simpa using this
      · simp
    · rw [htr]
      simp [Tap.emit, Tap.modify, hn, hsock, ERR_OK]
    · rw [htr, replies_append, replies_write_retval]
      simp [Tap.emit, Tap.modify, replies_append, replies, hsock, ERR_OK]
    · rw [hL4, hsplit]
      simp

/-- C15, witness: LISTEN(17) on session 7 of `tap_one` with the reply written. -/
theorem handle_listen_installs_witness :
    ∃ st2, handle_listen tap_one 7 (some 100) 17 5 .CLOSED 10 9 = .ok st2 ∧
      st2.deref conn_a.addr
        = some { conn_a with pcb := 10, listening := true, pending := false } ∧
      getConnectionByPCB st2 10
        = some { conn_a with pcb := 10, listening := true, pending := false } ∧
      st2.trace = tap_one.trace ++ [.tcp_listen conn_a.pcb 5 10,
        .tcp_accept 10 (some .nc_accept), .tcp_arg 10 (some conn_a.addr),
        .set_nonblocking conn_a.dataSock, .write_retval 7 0 0 9] ∧
      replies st2.trace = replies tap_one.trace ++ [(7, 0, 0)] ∧
      st2.tcp_connections.map (fun y => y.addr)
        = tap_one.tcp_connections.map (fun y => y.addr) :=
  (handle_listen_installs tap_one 7 (some 100) 17 5 .CLOSED 10 9 conn_a
    (by decide) (by decide)).2 (by decide) (by decide) (by decide) (by decide)

/-! ### C16 -/

/-- Reading back the object representation of an `int` gives the `int`. -/
theorem int_of_bytes_int_bytes (be : Bool) (v : Int)
    (hv : -2147483648 ≤ v ∧ v < 2147483648) :
    int_of_bytes be (int_bytes be v) = v := by
  have h0 : 0 ≤ v % 4294967296 := Int.emod_nonneg v (by decide)
  have h1 : v % 4294967296 < 4294967296 := Int.emod_lt_of_pos v (by decide)
  obtain ⟨u, hu⟩ : ∃ u : Nat, (v % 4294967296).toNat = u := ⟨_, rfl⟩
  have hu2 : (u : Int) = v % 4294967296 := by rw [← hu]; exact Int.toNat_of_nonneg h0
  have hrec : u % 256 + 256 * (u / 256 % 256) + 65536 * (u / 65536 % 256)
      + 16777216 * (u / 16777216 % 256) = u := by omega
  cases be <;>
    simp only [int_of_bytes, int_bytes, hu, List.reverse_cons, List.reverse_nil, List.nil_append,
      List.cons_append, List.getD_cons_zero, List.getD_cons_succ, if_true, if_false,
      Bool.false_eq_true, hrec] <;>
    split_ifs <;> omega

theorem length_int_bytes (be : Bool) (v : Int) : (int_bytes be v).length = 4 := by
  cases be <;> simp [int_bytes]

theorem retmsg_eq (be : Bool) (tag : Nat) (retval errno : Int) :
    retmsg be tag retval errno = tag :: (int_bytes be retval ++ int_bytes be errno) := by
  have ha := length_int_bytes be retval
  have hb := length_int_bytes be errno
  unfold retmsg
  generalize int_bytes be retval = a at ha
  generalize int_bytes be errno = b at hb
  match a, ha, b, hb with
  | [a0, a1, a2, a3], _, [b0, b1, b2, b3], _ => rfl

/-- C16: for every `int` value of `retval` and `_errno`, the record `send_return_value`
builds has exactly 9 bytes: byte 0 is the tag `RPC_RETVAL`, bytes 1 to 4 are `retval` and
bytes 5 to 8 are `_errno`, each as a 32-bit integer in host byte order, so that reading the
two fields back gives `(retval, _errno)`. -/
theorem retmsg_layout (be : Bool) (tag : Nat) (retval errno : Int)
    (hr : -2147483648 ≤ retval ∧ retval < 2147483648)
    (he : -2147483648 ≤ errno ∧ errno < 2147483648) :
    (retmsg be tag retval errno).length = 9 ∧
    (retmsg be tag retval errno)[0]? = some tag ∧
    ((retmsg be tag retval errno).drop 1).take 4 = int_bytes be retval ∧
    ((retmsg be tag retval errno).drop 5).take 4 = int_bytes be errno ∧
    int_of_bytes be (((retmsg be tag retval errno).drop 1).take 4) = retval ∧
    int_of_bytes be (((retmsg be tag retval errno).drop 5).take 4) = errno := by
  have ha := length_int_bytes be retval
  have hb := length_int_bytes be errno
  have h1 : ((retmsg be tag retval errno).drop 1).take 4 = int_bytes be retval := by
    rw [retmsg_eq, List.drop_succ_cons, List.drop_zero, ← ha, List.take_left]
  have h2 : ((retmsg be tag retval errno).drop 5).take 4 = int_bytes be errno := by
    rw [retmsg_eq, List.drop_succ_cons]
    have : List.drop 4 (int_bytes be retval ++ int_bytes be errno) = int_bytes be errno := by
      rw [← ha, List.drop_left]
    rw [this, ← hb, List.take_length]
  refine ⟨by rw [retmsg_eq]; simp [ha, hb], by rw [retmsg_eq]; simp, h1, h2, ?_, ?_⟩
  · rw [h1]; exact int_of_bytes_int_bytes be retval hr
  · rw [h2]; exact int_of_bytes_int_bytes be errno he

/-- C16, witness: the record RETVAL(-1, EBADF) on a little-endian host with tag 7. -/
theorem retmsg_layout_witness :
    (retmsg false 7 (-1) EBADF).length = 9 ∧
    (retmsg false 7 (-1) EBADF)[0]? = some 7 ∧
    ((retmsg false 7 (-1) EBADF).drop 1).take 4 = int_bytes false (-1) ∧
    ((retmsg false 7 (-1) EBADF).drop 5).take 4 = int_bytes false EBADF ∧
    int_of_bytes false (((retmsg false 7 (-1) EBADF).drop 1).take 4) = -1 ∧
    int_of_bytes false (((retmsg false 7 (-1) EBADF).drop 5).take 4) = EBADF :=
  retmsg_layout false 7 (-1) EBADF (by decide) (by decide)

/-! ### C17 -/

theorem flatten_put_fill_rest : ∀ (lens : List Nat) (d : List Nat),
    (put_fill_rest lens d).flatten = d.take lens.sum := by
  intro lens
  induction lens with
  | nil => intro d; simp [put_fill_rest]
  | cons q rest ih =>
    intro d
    simp only [put_fill_rest, List.flatten_cons, List.sum_cons, ih, List.take_add]

theorem lengths_put_fill_rest : ∀ (lens : List Nat) (d : List Nat), lens.sum ≤ d.length →
    (put_fill_rest lens d).map List.length = lens := by
  intro lens
  induction lens with
  | nil => intro d _; simp [put_fill_rest]
  | cons q rest ih =>
    intro d hd
    simp only [List.sum_cons] at hd
    simp only [put_fill_rest, List.map_cons, List.length_take]
    rw [ih (d.drop q) (by simp; omega)]
    simp
    omega

/-- C17: when the tap is enabled and `pbuf_alloc` returns a chain whose buffer lengths sum
to `len + 14`, the first buffer holding at least 14 bytes, `put` hands one chain to the
interface input, the buffers have the lengths `pbuf_alloc` gave them, and their payloads
concatenated are: destination MAC (6 bytes), source MAC (6 bytes), `etherType` as 2
big-endian bytes, `data[0..len)`; this for every split of the chain.  When the tap is
disabled or the allocation fails, nothing is handed to the stack. -/
theorem put_assembles_frame (from_mac to_mac : List Nat) (etherType : Nat) (data : List Nat)
    (len qlen : Nat) (rest : List Nat) (input_err : Int)
    (hfrom : from_mac.length = 6) (hto : to_mac.length = 6) (hlen : len ≤ data.length)
    (hq : 14 ≤ qlen) (hsum : qlen + rest.sum = len + 14) :
    (∃ chain, put true from_mac to_mac etherType data len (some (qlen, rest)) input_err
        = [.netif_input chain input_err] ∧
      chain.flatten = to_mac ++ from_mac ++ [etherType % 65536 / 256, etherType % 256]
        ++ data.take len ∧
      chain.map List.length = qlen :: rest) ∧
    (∀ alloc, put false from_mac to_mac etherType data len alloc input_err = []) ∧
    (∀ enabled, put enabled from_mac to_mac etherType data len none input_err = []) := by
  refine ⟨?_, fun alloc => by simp [put], fun enabled => by cases enabled <;> simp [put]⟩
  have hq2 : ¬ qlen < SIZEOF_ETH_HDR := by simp [SIZEOF_ETH_HDR]; omega
  have htf : to_mac.take 6 = to_mac := by rw [← hto, List.take_length]
  have hff : from_mac.take 6 = from_mac := by rw [← hfrom, List.take_length]
  refine ⟨(eth_hdr_bytes from_mac to_mac etherType ++ data.take (qlen - SIZEOF_ETH_HDR)) ::
      put_fill_rest rest (data.drop (qlen - SIZEOF_ETH_HDR)),
    by simp only [put, Bool.not_true, Bool.false_eq_true, if_false, hq2], ?_, ?_⟩
  · simp only [List.flatten_cons, flatten_put_fill_rest, eth_hdr_bytes, htf, hff,
      SIZEOF_ETH_HDR, List.append_assoc]
    have : len = (qlen - 14) + rest.sum := by omega
    rw [this, List.take_add]
  · simp only [List.map_cons, List.length_append, eth_hdr_bytes, htf, hff, hto, hfrom,
      List.length_take, SIZEOF_ETH_HDR, List.length_cons, List.length_nil]
    rw [lengths_put_fill_rest rest _ (by simp; omega)]
    congr 1
    omega

/-- C17, witness: a 5-byte IPv4 payload in a chain of buffers of 16, 2 and 1 bytes. -/
theorem put_assembles_frame_witness :
    (∃ chain, put true [1, 2, 3, 4, 5, 6] [7, 8, 9, 10, 11, 12] 2048 [100, 101, 102, 103, 104] 5
        (some (16, [2, 1])) 0 = [.netif_input chain 0] ∧
      chain.flatten = [7, 8, 9, 10, 11, 12] ++ [1, 2, 3, 4, 5, 6]
        ++ [2048 % 65536 / 256, 2048 % 256] ++ [100, 101, 102, 103, 104].take 5 ∧
      chain.map List.length = 16 :: [2, 1]) ∧
    (∀ alloc, put false [1, 2, 3, 4, 5, 6] [7, 8, 9, 10, 11, 12] 2048 [100, 101, 102, 103, 104] 5
      alloc 0 = []) ∧
    (∀ enabled, put enabled [1, 2, 3, 4, 5, 6] [7, 8, 9, 10, 11, 12] 2048
      [100, 101, 102, 103, 104] 5 none 0 = []) :=
  put_assembles_frame [1, 2, 3, 4, 5, 6] [7, 8, 9, 10, 11, 12] 2048 [100, 101, 102, 103, 104] 5
    16 [2, 1] 0 (by decide) (by decide) (by decide) (by decide) (by decide)

/-! ### C18 -/

/-- C18, counterexample: a chain whose first buffer has no bytes and whose second buffer
holds 1, 2.  The loop stops at the first buffer, so nothing is written to `local_end`, while
the payloads of the chain concatenated are 1, 2. -/
theorem nc_recved_stops_at_empty_buffer :
    ¬ (∀ st2, nc_recved tap_one (some 100) 9 (some chain_empty_first) 0 = .ok (st2, ERR_OK) →
        bytes_sent st2.trace = (chain_empty_first.map (fun b => b.1)).flatten) := by
  intro h
  have h2 := h _ rfl
  revert h2
  decide

theorem bytes_sent_append (a b : List Event) :
    bytes_sent (a ++ b) = bytes_sent a ++ bytes_sent b := by
  simp [bytes_sent]

theorem recved_total_append (a b : List Event) :
    recved_total (a ++ b) = recved_total a + recved_total b := by
  simp [recved_total]

/-- The count reported through `tcp_recved` is the number of bytes written. -/
theorem nc_recved_loop_total (dataSock tpcb : Nat) :
    ∀ chain : List (List Nat × Int), (∀ b ∈ chain, b.2 ≤ b.1.length) →
      recved_total (nc_recved_loop dataSock tpcb chain)
        = (bytes_sent (nc_recved_loop dataSock tpcb chain)).length := by
  intro chain
  induction chain with
  | nil => intro _; simp [nc_recved_loop, recved_total, bytes_sent]
  | cons b rest ih =>
    intro h
    obtain ⟨payload, n⟩ := b
    have hn : n ≤ payload.length := h (payload, n) (by simp)
    have ih2 := ih (fun b hb => h b (by simp [hb]))
    by_cases h0 : payload.length ≤ 0
    · simp [nc_recved_loop, h0, recved_total, bytes_sent]
    · by_cases hp : n > 0
      · simp only [nc_recved_loop, h0, if_false, hp, if_true, recved_total_append,
          bytes_sent_append, List.length_append, ih2]
        simp [recved_total, bytes_sent, hp]
        omega
      · simp only [nc_recved_loop, h0, if_false, hp, recved_total_append,
          bytes_sent_append, List.length_append, ih2]
        simp [recved_total, bytes_sent, hp]

/-- When every write is complete, the bytes written are the payloads of the buffers before
the first buffer without bytes. -/
theorem nc_recved_loop_complete (dataSock tpcb : Nat) :
    ∀ chain : List (List Nat × Int), (∀ b ∈ chain, b.2 = b.1.length) →
      bytes_sent (nc_recved_loop dataSock tpcb chain)
        = ((chain.takeWhile (fun b => decide (0 < b.1.length))).map (fun b => b.1)).flatten := by
  intro chain
  induction chain with
  | nil => intro _; simp [nc_recved_loop, bytes_sent]
  | cons b rest ih =>
    intro h
    obtain ⟨payload, n⟩ := b
    have hn : n = payload.length := h (payload, n) (by simp)
    have ih2 := ih (fun b hb => h b (by simp [hb]))
    by_cases h0 : payload.length ≤ 0
    · have h1 : ¬ 0 < payload.length := by omega
      simp [nc_recved_loop, h0, bytes_sent, List.takeWhile_cons, h1]
    · have h1 : 0 < payload.length := by omega
      have hp : n > 0 := by omega
      simp only [nc_recved_loop, h0, if_false, hp, if_true, bytes_sent_append, ih2,
        List.takeWhile_cons, h1, decide_True, List.map_cons, List.flatten_cons]
      simp [bytes_sent, hp, hn]

/-- C18, amended: for every non-null chain passed to `nc_recved` for a registered
connection (every `streamSend` returning at most the length it was given), the total byte
count reported to the stack through `tcp_recved` equals the number of bytes written to
`local_end`; and when every write is complete, the bytes written are exactly the payloads,
in chain order, of the buffers before the first buffer without bytes, where the loop stops,
and the reported total is their total length: the whole chain when no buffer is empty. -/
theorem nc_recved_forwards (st : Tap) (p : Nat) (c : TcpConnection) (tpcb : Nat)
    (chain : List (List Nat × Int)) (err : Int)
    (hc : st.deref p = some c) (hle : ∀ b ∈ chain, b.2 ≤ b.1.length) :
    ∃ evs, nc_recved st (some p) tpcb (some chain) err = .ok (st.emit evs, ERR_OK) ∧
      recved_total evs = (bytes_sent evs).length ∧
      ((∀ b ∈ chain, b.2 = b.1.length) →
        bytes_sent evs
          = ((chain.takeWhile (fun b => decide (0 < b.1.length))).map (fun b => b.1)).flatten ∧
        ((∀ b ∈ chain, 0 < b.1.length) →
          bytes_sent evs = (chain.map (fun b => b.1)).flatten ∧
          recved_total evs = ((chain.map (fun b => b.1)).flatten).length)) := by
  have hev : nc_recved st (some p) tpcb (some chain) err
      = .ok (st.emit (nc_recved_loop c.dataSock tpcb chain ++ [.pbuf_free]), ERR_OK) := by
    cases chain with
    | nil => simp [nc_recved, nc_recved_loop]
    | cons b rest =>
      obtain ⟨payload, n⟩ := b
      by_cases h0 : payload.length ≤ 0
      · simp [nc_recved, nc_recved_loop, h0]
      · simp only [nc_recved, h0, if_false, hc]
  have htot : recved_total (nc_recved_loop c.dataSock tpcb chain ++ [.pbuf_free])
      = recved_total (nc_recved_loop c.dataSock tpcb chain) := by
    simp [recved_total]
  have hsent : bytes_sent (nc_recved_loop c.dataSock tpcb chain ++ [.pbuf_free])
      = bytes_sent (nc_recved_loop c.dataSock tpcb chain) := by
    simp [bytes_sent]
  refine ⟨_, hev, ?_, fun hall => ⟨?_, fun hpos => ?_⟩⟩
  · rw [htot, hsent]
    exact nc_recved_loop_total c.dataSock tpcb chain hle
  · rw [hsent]
    exact nc_recved_loop_complete c.dataSock tpcb chain hall
  · have hw : chain.takeWhile (fun b => decide (0 < b.1.length)) = chain := by
      rw [List.takeWhile_eq_self_iff]
      intro b hb
      simpa using hpos b hb
    have h1 : bytes_sent (nc_recved_loop c.dataSock tpcb chain ++ [.pbuf_free])
        = (chain.map (fun b => b.1)).flatten := by
      rw [hsent, nc_recved_loop_complete c.dataSock tpcb chain hall, hw]
    refine ⟨h1, ?_⟩
    rw [htot, nc_recved_loop_total c.dataSock tpcb chain hle, ← hsent, h1]

/-- C18, witness: a chain of two buffers written completely to the data socket of `conn_a`. -/
theorem nc_recved_forwards_witness :
    ∃ evs, nc_recved tap_one (some 100) 9 (some [([1, 2], 2), ([3], 1)]) 0
        = .ok (tap_one.emit evs, ERR_OK) ∧
      recved_total evs = (bytes_sent evs).length ∧
      ((∀ b ∈ [(([1, 2] : List Nat), (2 : Int)), ([3], 1)], b.2 = b.1.length) →
        bytes_sent evs
          = (([(([1, 2] : List Nat), (2 : Int)), ([3], 1)].takeWhile
              (fun b => decide (0 < b.1.length))).map (fun b => b.1)).flatten ∧
        ((∀ b ∈ [(([1, 2] : List Nat), (2 : Int)), ([3], 1)], 0 < b.1.length) →
          bytes_sent evs
            = ([(([1, 2] : List Nat), (2 : Int)), ([3], 1)].map (fun b => b.1)).flatten ∧
          recved_total evs
            = (([(([1, 2] : List Nat), (2 : Int)), ([3], 1)].map (fun b => b.1)).flatten).length)) :=
  nc_recved_forwards tap_one 100 conn_a 9 [([1, 2], 2), ([3], 1)] 0 (by decide) (by decide)

/-! ### C19 -/

/-- C19, counterexample: with `TCP_SND_BUF = 4` and four bytes buffered, `handle_write` makes
no call at all; in particular it does not switch off the read notifications of `local_end`. -/
theorem handle_write_full_keeps_notifications :
    ∃ r, handle_write_conn 4 conn_full refused_round = .ok r ∧
      ¬ (Event.set_notify_readable conn_full.dataSock false ∈ r.2) :=
  ⟨_, rfl, by decide⟩

theorem find_addr_map_update_at (p : Nat) (f : TcpConnection → TcpConnection)
    (c : TcpConnection) (hf : (f c).addr = p) :
    ∀ l : List TcpConnection, l.find? (fun y => y.addr == p) = some c →
      (l.map (fun x => if x.addr == p then f x else x)).find? (fun y => y.addr == p)
        = some (f c) := by
  intro l
  induction l with
  | nil => intro h; simp at h
  | cons a l ih =>
    intro h
    by_cases ha : a.addr = p
    · simp [List.find?_cons, ha] at h
      subst h
      have hfa : ((f a).addr == p) = true := by simp [hf]
      have hab : (a.addr == p) = true := by simp [ha]
      simp only [List.map_cons, List.find?_cons, hab, if_true, hfa]
    · have hb : (a.addr == p) = false := by simpa using ha
      simp only [List.find?_cons, hb] at h
      simp only [List.map_cons, List.find?_cons, hb, Bool.false_eq_true, ↓reduceIte]
      exact ih h

/-- C19, amended: for every connection whose buffered byte count `idx` is at least
`TCP_SND_BUF`, `handle_write` returns without reading from `local_end`, without writing to the
stack and without touching the read notifications: it makes no call and leaves the
connection as it is. -/
theorem handle_write_full_does_nothing (M : Nat) (c : TcpConnection) (inp : WriteInput)
    (h : M ≤ c.idx) :
    handle_write_conn M c inp = .ok (c, []) ∧
    (∀ (st : Tap) (p : Nat), st.deref p = some c →
      ∃ st2, handle_write M st (some p) inp = .ok st2 ∧ st2.trace = st.trace ∧
        st2.deref p = some c) := by
  have h1 : ¬ c.idx < M := by omega
  have hw : handle_write_conn M c inp = .ok (c, []) := by
    simp [handle_write_conn, h1]
  refine ⟨hw, fun st p hc => ⟨(st.modify p (fun _ => c)).emit [], ?_, ?_, ?_⟩⟩
  · simp only [handle_write, hc, hw, Outcome.bind_ok]
  · simp [Tap.emit, Tap.modify]
  · exact find_addr_map_update_at p (fun _ => c) c (deref_mem st p c hc).2 st.tcp_connections hc

/-- C19, witness: `conn_full` with `TCP_SND_BUF = 4`. -/
theorem handle_write_full_does_nothing_witness :
    handle_write_conn 4 conn_full refused_round = .ok (conn_full, []) ∧
    (∀ (st : Tap) (p : Nat), st.deref p = some conn_full →
      ∃ st2, handle_write 4 st (some p) refused_round = .ok st2 ∧ st2.trace = st.trace ∧
        st2.deref p = some conn_full) :=
  handle_write_full_does_nothing 4 conn_full refused_round (by decide)

/-! ### C20 -/

/-- C20, counterexample: one byte is read into the empty buffer of `conn_a` and the stack
refuses the write; the call returns with `idx = 1`, not 0 as before the call. -/
theorem handle_write_failed_write_keeps_idx_advanced :
    ∃ r, handle_write_conn 2048 conn_a refused_round = .ok r ∧ ¬ (r.1.idx = conn_a.idx) :=
  ⟨_, rfl, by decide⟩

/-- C20, amended: for every `handle_write` call in which `r > 0` bytes are read from
`local_end` into the start of the buffer (`idx = 0` before the call): the call returns, the
bytes read are stored at the front of `buf` and exactly they are handed to `tcp_write`; if
the write succeeds `idx` is 0 again, no unwritten byte being left; if it fails, `idx` after
the call is `idx` before the call plus `r`.  Nothing else of the connection changes. -/
theorem handle_write_after_read (M : Nat) (c : TcpConnection) (inp : WriteInput)
    (hidx : c.idx = 0) (hM : 0 < M) (hpcb : c.pcb ≠ 0) (hsnd : inp.snd_buf ≠ 0)
    (hds : c.dataSock ≠ 0) (hr : inp.rd ≠ []) :
    ∃ r, handle_write_conn M c inp = .ok r ∧
      r.2 = (if c.listening then [] else [Event.tcp_output c.pcb]) ++
        [Event.read c.dataSock inp.snd_buf inp.rd, Event.tcp_write c.pcb inp.rd inp.err,
          Event.tcp_output c.pcb] ∧
      r.1 = { c with buf := inp.rd ++ c.buf.drop inp.rd.length, idx := r.1.idx } ∧
      (inp.err = ERR_OK → r.1.idx = c.idx) ∧
      (inp.err ≠ ERR_OK → r.1.idx = c.idx + inp.rd.length) := by
  have h5 : inp.rd.length > 0 := List.length_pos.mpr hr
  have ht := take_read_store c.buf inp.rd
  unfold handle_write_conn
  by_cases h6 : inp.err = ERR_OK
  · cases hl : c.listening <;>
      simp [hM, hidx, hpcb, hsnd, hds, h5, h6, hl, ht, read_store]
  · cases hl : c.listening <;>
      simp [hM, hidx, hpcb, hsnd, hds, h5, h6, hl, ht, read_store]

/-- C20, witness: one byte read into the empty buffer of `conn_a`, the write refused. -/
theorem handle_write_after_read_witness :
    conn_a.idx = 0 ∧ 0 < 2048 ∧ conn_a.pcb ≠ 0 ∧ refused_round.snd_buf ≠ 0 ∧
    conn_a.dataSock ≠ 0 ∧ refused_round.rd ≠ [] ∧
    ∃ r, handle_write_conn 2048 conn_a refused_round = .ok r ∧
      r.2 = (if conn_a.listening then [] else [Event.tcp_output conn_a.pcb]) ++
        [Event.read conn_a.dataSock refused_round.snd_buf refused_round.rd,
          Event.tcp_write conn_a.pcb refused_round.rd refused_round.err,
          Event.tcp_output conn_a.pcb] ∧
      r.1 = { conn_a with
        buf := refused_round.rd ++ conn_a.buf.drop refused_round.rd.length, idx := r.1.idx } ∧
      (refused_round.err = ERR_OK → r.1.idx = conn_a.idx) ∧
      (refused_round.err ≠ ERR_OK → r.1.idx = conn_a.idx + refused_round.rd.length) :=
  ⟨by decide, by decide, by decide, by decide, by decide, by decide,
    handle_write_after_read 2048 conn_a refused_round (by decide) (by decide) (by decide)
      (by decide) (by decide) (by decide)⟩

/-! ### C21 -/

/-- From the empty buffer the bound holds after one pump round: the round returns and `idx`
is at most `TCP_SND_BUF`, for every advertised `snd_buf` up to `TCP_SND_BUF`, every read
result `r <= snd_buf` and every outcome of the stack's write. -/
theorem handle_write_conn_from_empty (M : Nat) (c : TcpConnection) (inp : WriteInput)
    (h0 : c.idx = 0) (hs : inp.snd_buf ≤ M) (hr : inp.rd.length ≤ inp.snd_buf) :
    ∃ r, handle_write_conn M c inp = .ok r ∧ r.1.idx ≤ M := by
  unfold handle_write_conn
  by_cases h1 : 0 < M
  · by_cases h2 : c.pcb = 0
    · simp [h0, h1, h2]
    · by_cases h3 : inp.snd_buf = 0
      · simp [h0, h1, h2, h3]
      · by_cases h4 : c.dataSock = 0
        · simp [h0, h1, h2, h3, h4]
        · by_cases h5 : inp.rd.length > 0
          · by_cases h6 : inp.err = ERR_OK
            · simp [h0, h1, h2, h3, h4, h5, h6]
            · simp [h0, h1, h2, h3, h4, h5, h6]
              omega
          · have h5z : inp.rd = [] := by
              apply List.eq_nil_of_length_eq_zero
              omega
            simp [h0, h1, h2, h3, h4, h5z]
  · simp [h0, h1]

/-- C21, the code at the failing input, with `TCP_SND_BUF = 4`: a refused write of one byte
from the empty buffer leaves `idx = 1`, within the bound; in the next call the `read` of
four bytes is given the address `(&conn->buf)+1`, outside `buf`, and what it stores there
leaves no bound on `idx`. -/
theorem handle_write_bound_lost_after_refusal :
    conn_a.idx ≤ 4 ∧ refused_round.snd_buf ≤ 4 ∧
    refused_round.rd.length ≤ refused_round.snd_buf ∧
    handle_write_conn 4 conn_a refused_round
      = .ok (conn_one, [Event.tcp_output 9, Event.read 8 1 [1],
          Event.tcp_write 9 [1] ERR_MEM, Event.tcp_output 9]) ∧
    conn_one.idx ≤ 4 ∧ refused_four.snd_buf ≤ 4 ∧
    refused_four.rd.length ≤ refused_four.snd_buf ∧
    handle_write_conn 4 conn_one refused_four = .undefined := by
  decide

/-! ### C22 -/

/-- C22: for a registry whose entries are distinct objects and a registered connection `c`,
`closeConnection(c)` returns, clears the five callback slots of `c.pcb` and then closes
`c.pcb` (the only close of a PCB it makes), removes exactly the entry `c` from
`tcp_connections`, whose length decreases by one while the other entries keep their values
and their order, and afterwards neither `getConnectionByPCB` nor `getConnectionByTheirFD`
returns `c`, whatever the key. -/
theorem closeConnection_removes_entry (st : Tap) (c : TcpConnection)
    (hnd : (st.tcp_connections.map (fun y => y.addr)).Nodup)
    (hmem : c ∈ st.tcp_connections) :
    ∃ st2 pre post, closeConnection st c.addr = .ok st2 ∧
      st2.trace = st.trace ++
        ([Event.tcp_arg c.pcb none, Event.tcp_sent c.pcb none, Event.tcp_recv c.pcb none,
          Event.tcp_err c.pcb none, Event.tcp_poll c.pcb none 0, Event.tcp_close c.pcb] ++
        (if c.dataSock ≠ 0 then [Event.close_fd c.dataSock, Event.phy_close c.dataSock]
          else [])) ∧
      close_calls st2.trace = close_calls st.trace ++ [c.pcb] ∧
      st.tcp_connections = pre ++ c :: post ∧
      st2.tcp_connections = pre ++ post ∧
      st2.tcp_connections.length + 1 = st.tcp_connections.length ∧
      c ∉ st2.tcp_connections ∧
      st2.deref c.addr = none ∧
      (∀ pcb x, getConnectionByPCB st2 pcb = some x → x.addr ≠ c.addr) ∧
      (∀ sock fd x, getConnectionByTheirFD st2 sock fd = some x → x.addr ≠ c.addr) := by
  obtain ⟨pre, post, hL⟩ := List.append_of_mem hmem
  rw [hL] at hnd
  obtain ⟨hpre, hpost, -⟩ := nodup_addr_split pre post c hnd
  obtain ⟨st2, hcl, hconns, -, -, htr⟩ := closeConnection_registered st pre post c hL hpre
  have hall : ∀ x ∈ st2.tcp_connections, x.addr ≠ c.addr := by
    intro x hx
    rw [hconns, List.mem_append] at hx
    rcases hx with hx | hx
    · exact hpre x hx
    · exact hpost x hx
  refine ⟨st2, pre, post, hcl, ?_, ?_, hL, hconns, ?_, ?_, ?_, ?_, ?_⟩
  · rw [htr]; rfl
  · rw [htr, close_calls_append, close_calls_close_events]
  · rw [hconns, hL]; simp; omega
  · intro hc
    exact hall c hc rfl
  · unfold Tap.deref
    rw [List.find?_eq_none]
    intro x hx
    simpa using hall x hx
  · intro pcb x hx
    exact hall x (List.mem_of_find?_eq_some hx)
  · intro sock fd x hx
    exact hall x (List.mem_of_find?_eq_some hx)

/-- C22, witness: closing `conn_a` in the registry `[conn_a, conn_b]`. -/
theorem closeConnection_removes_entry_witness :
    (tap_two.tcp_connections.map (fun y => y.addr)).Nodup ∧ conn_a ∈ tap_two.tcp_connections ∧
    ∃ st2 pre post, closeConnection tap_two conn_a.addr = .ok st2 ∧
      st2.trace = tap_two.trace ++
        ([Event.tcp_arg conn_a.pcb none, Event.tcp_sent conn_a.pcb none,
          Event.tcp_recv conn_a.pcb none, Event.tcp_err conn_a.pcb none,
          Event.tcp_poll conn_a.pcb none 0, Event.tcp_close conn_a.pcb] ++
        (if conn_a.dataSock ≠ 0
          then [Event.close_fd conn_a.dataSock, Event.phy_close conn_a.dataSock]
          else [])) ∧
      close_calls st2.trace = close_calls tap_two.trace ++ [conn_a.pcb] ∧
      tap_two.tcp_connections = pre ++ conn_a :: post ∧
      st2.tcp_connections = pre ++ post ∧
      st2.tcp_connections.length + 1 = tap_two.tcp_connections.length ∧
      conn_a ∉ st2.tcp_connections ∧
      st2.deref conn_a.addr = none ∧
      (∀ pcb x, getConnectionByPCB st2 pcb = some x → x.addr ≠ conn_a.addr) ∧
      (∀ sock fd x, getConnectionByTheirFD st2 sock fd = some x → x.addr ≠ conn_a.addr) :=
  ⟨by decide, by decide, closeConnection_removes_entry tap_two conn_a (by decide) (by decide)⟩

/-! ### C23 -/

/-- The `uint64_t` difference `now - prev` is the difference of the numbers when the clock
has not gone backwards. -/
theorem sub_u64_of_le (now prev : Nat) (hnow : now < 18446744073709551616)
    (hle : prev ≤ now) : sub_u64 now prev = now - prev := by
  unfold sub_u64
  omega

/-- C23, counterexample: `ARP_TMR_INTERVAL = 5000`, the timestamps as `threadMain`
initialises them and `now = 100`, the first iteration.  The TCP timer is due
(`tcp_due = 0`, `arp_due = 4900`), so the minimum of the due times computed at the start of
the iteration is 0, and the loop ticks the TCP timer and polls with timeout 10. -/
theorem threadMain_poll_timeout_not_min_due :
    spec_due ZT_LWIP_TCP_TIMER_INTERVAL 100 timers_start.prev_tcp_time = 0 ∧
    spec_due 5000 100 timers_start.prev_etharp_time = 4900 ∧
    (threadMain_iteration 5000 timers_start 100).2 = [Event.tcp_tmr, Event.phy_poll 10] ∧
    Event.phy_poll (min (spec_due ZT_LWIP_TCP_TIMER_INTERVAL 100 timers_start.prev_tcp_time)
      (spec_due 5000 100 timers_start.prev_etharp_time)) ∉
      (threadMain_iteration 5000 timers_start 100).2 := by
  decide

/-- C23, amended: in an iteration of the event loop whose clock reading `now` is not before
the two timestamps, with `tcp_due` and `arp_due` computed from the timestamps at the start
of the iteration, the TCP timer is ticked iff `tcp_due = 0`, the ARP timer is ticked iff
`arp_due = 0`, a ticked timer has its timestamp set to `now` and the other keeps its own,
the calls are the ticks followed by one poll, and the timeout of the poll is the minimum of
the due times computed from the timestamps after these updates: a timer that was just
ticked counts with its whole interval, not with 0. -/
theorem threadMain_iteration_spec (ARP_TMR_INTERVAL : Nat) (t : Timers) (now : Nat)
    (hnow : now < 18446744073709551616)
    (htcp : t.prev_tcp_time ≤ now) (harp : t.prev_etharp_time ≤ now) :
    (Event.tcp_tmr ∈ (threadMain_iteration ARP_TMR_INTERVAL t now).2 ↔
      spec_due ZT_LWIP_TCP_TIMER_INTERVAL now t.prev_tcp_time = 0) ∧
    (Event.etharp_tmr ∈ (threadMain_iteration ARP_TMR_INTERVAL t now).2 ↔
      spec_due ARP_TMR_INTERVAL now t.prev_etharp_time = 0) ∧
    (threadMain_iteration ARP_TMR_INTERVAL t now).1.prev_tcp_time =
      (if spec_due ZT_LWIP_TCP_TIMER_INTERVAL now t.prev_tcp_time = 0 then now
        else t.prev_tcp_time) ∧
    (threadMain_iteration ARP_TMR_INTERVAL t now).1.prev_etharp_time =
      (if spec_due ARP_TMR_INTERVAL now t.prev_etharp_time = 0 then now
        else t.prev_etharp_time) ∧
    (threadMain_iteration ARP_TMR_INTERVAL t now).2 =
      (if spec_due ZT_LWIP_TCP_TIMER_INTERVAL now t.prev_tcp_time = 0 then [Event.tcp_tmr]
        else []) ++
      (if spec_due ARP_TMR_INTERVAL now t.prev_etharp_time = 0 then [Event.etharp_tmr]
        else []) ++
      [Event.phy_poll (min
        (spec_due ZT_LWIP_TCP_TIMER_INTERVAL now
          (threadMain_iteration ARP_TMR_INTERVAL t now).1.prev_tcp_time)
        (spec_due ARP_TMR_INTERVAL now
          (threadMain_iteration ARP_TMR_INTERVAL t now).1.prev_etharp_time))] := by
  have e1 := sub_u64_of_le now t.prev_tcp_time hnow htcp
  have e2 := sub_u64_of_le now t.prev_etharp_time hnow harp
  unfold threadMain_iteration spec_due
  simp only [e1, e2]
  by_cases h1 : now - t.prev_tcp_time ≥ ZT_LWIP_TCP_TIMER_INTERVAL
  · have d1 : ZT_LWIP_TCP_TIMER_INTERVAL - (now - t.prev_tcp_time) = 0 := by omega
    by_cases h2 : now - t.prev_etharp_time ≥ ARP_TMR_INTERVAL
    · have d2 : ARP_TMR_INTERVAL - (now - t.prev_etharp_time) = 0 := by omega
      simp [h1, h2, d1, d2]
    · have d2 : ¬ ARP_TMR_INTERVAL - (now - t.prev_etharp_time) = 0 := by omega
      simp [h1, h2, d1, d2]
  · have d1 : ¬ ZT_LWIP_TCP_TIMER_INTERVAL - (now - t.prev_tcp_time) = 0 := by omega
    by_cases h2 : now - t.prev_etharp_time ≥ ARP_TMR_INTERVAL
    · have d2 : ARP_TMR_INTERVAL - (now - t.prev_etharp_time) = 0 := by omega
      simp [h1, h2, d1, d2]
    · have d2 : ¬ ARP_TMR_INTERVAL - (now - t.prev_etharp_time) = 0 := by omega
      simp [h1, h2, d1, d2]

/-- C23, witness: the first iteration, at `now = 100` with `ARP_TMR_INTERVAL = 5000`. -/
theorem threadMain_iteration_spec_witness :
    (100 : Nat) < 18446744073709551616 ∧ timers_start.prev_tcp_time ≤ 100 ∧
    timers_start.prev_etharp_time ≤ 100 ∧
    (Event.tcp_tmr ∈ (threadMain_iteration 5000 timers_start 100).2 ↔
      spec_due ZT_LWIP_TCP_TIMER_INTERVAL 100 timers_start.prev_tcp_time = 0) ∧
    (Event.etharp_tmr ∈ (threadMain_iteration 5000 timers_start 100).2 ↔
      spec_due 5000 100 timers_start.prev_etharp_time = 0) ∧
    (threadMain_iteration 5000 timers_start 100).1.prev_tcp_time =
      (if spec_due ZT_LWIP_TCP_TIMER_INTERVAL 100 timers_start.prev_tcp_time = 0 then 100
        else timers_start.prev_tcp_time) ∧
    (threadMain_iteration 5000 timers_start 100).1.prev_etharp_time =
      (if spec_due 5000 100 timers_start.prev_etharp_time = 0 then 100
        else timers_start.prev_etharp_time) ∧
    (threadMain_iteration 5000 timers_start 100).2 =
      (if spec_due ZT_LWIP_TCP_TIMER_INTERVAL 100 timers_start.prev_tcp_time = 0
        then [Event.tcp_tmr] else []) ++
      (if spec_due 5000 100 timers_start.prev_etharp_time = 0 then [Event.etharp_tmr]
        else []) ++
      [Event.phy_poll (min
        (spec_due ZT_LWIP_TCP_TIMER_INTERVAL 100
          (threadMain_iteration 5000 timers_start 100).1.prev_tcp_time)
        (spec_due 5000 100
          (threadMain_iteration 5000 timers_start 100).1.prev_etharp_time))] :=
  ⟨by decide, by decide, by decide,
    threadMain_iteration_spec 5000 timers_start 100 (by decide) (by decide) (by decide)⟩

end NetconEthernetTap
